import Mathlib

/-!
Observer pattern: the `DatabaseSubject` registry of `db-server/index.ts`.

A shallow embedding of the class `DatabaseSubject` (observer bookkeeping, the
record list with its id counter, and the webhook fan-out of `notify`).

Modelling conventions.

* The object's three private fields are a record `DatabaseSubject`; a method
  takes the object before the call and returns an `Outcome`: the object after
  the call, the effects the call had on the outside (`Trace`) and what the
  caller gets (`Except`: a value, or a raised error / rejected promise).
* JavaScript numbers that hold ids are integers (`Int`); the counter stays far
  below `2 ^ 53`, where `nextId++` is exact.
* The outside world is a parameter `Env`: the clock read by `new Date()` and the
  behaviour of `fetch` for each request of a fan-out.
* In `run`, one call runs to completion before the next one starts; lines
  logged by the callbacks of one fan-out are listed in observer order.
* The order of the effects of one call, with requests that settle in any order
  or never, is the `...Timeline` of the method; `addData` calls that overlap
  are the turns of `InFlight`.
* `name` and `value` are run-time values (`JsValue`): the route handlers pass
  on the untyped fields of `req.body`. The handlers take the path id as the
  integer `parseInt` produced.
-/

namespace ObserverPattern

/-- Observer interface: stores the webhook URL. -/
structure Observer where
  id : String
  webhookUrl : String
deriving DecidableEq, Repr

/-- A value as JavaScript holds it at run time: what `JSON.parse` can produce,
or `undefined` (a field that is missing). `number` is an integer-valued number;
`other` stands for every remaining value (a number that is not an integer, an
array, an object), by its JSON text. The `string` annotations on `name` and
`value` are erased at run time and the route handlers pass on untyped fields
of `req.body`, so `name` and `value` range over all of these. -/
inductive JsValue where
  | undefined
  | null
  | bool (b : Bool)
  | number (n : Int)
  | string (s : String)
  | other (json : String)
deriving DecidableEq, Repr

/-- Data model. -/
structure DataItem where
  id : Int
  name : JsValue
  value : JsValue
deriving DecidableEq, Repr

/-- The second parameter of `notify`, of type `DataItem | number`. -/
inductive EventData where
  | item (d : DataItem)
  | number (n : Int)
deriving DecidableEq, Repr

/-- The object literal `payload` built by `notify`. -/
structure Payload where
  event : String
  data : EventData
  timestamp : String
deriving DecidableEq, Repr

/-- One call `fetch(url, POST, body)`. -/
structure Delivery where
  url : String
  body : Payload
deriving DecidableEq, Repr

/-- Lines written to the console. -/
inductive LogLine where
  | subscribed (id : String) (webhookUrl : String)
  | unsubscribed (id : String)
  | notifying (count : Nat) (event : String)
  | notified (id : String) (status : Nat)
  | failed (id : String) (error : String)
deriving DecidableEq, Repr

/-- The outside world seen by one call: the clock, and how the `fetch` issued
for the observer at a given position, to a given URL, settles (a response with
its status, or a thrown transport error). -/
structure Env where
  now : String
  fetch : Nat → String → Except String Nat

/-- What a call did to the outside: the payloads `notify` built (one per
call of `notify`), the requests it issued, the console lines. -/
structure Trace where
  events : List Payload
  deliveries : List Delivery
  log : List LogLine
deriving DecidableEq, Repr

/-- The trace of a call that neither notifies nor logs. -/
def Trace.empty : Trace := { events := [], deliveries := [], log := [] }

/-- Subject class: manages observers and data. -/
structure DatabaseSubject where
  observers : List Observer
  data : List DataItem
  nextId : Int
deriving DecidableEq, Repr

/-- The object after `new DatabaseSubject()`. -/
def DatabaseSubject.fresh : DatabaseSubject :=
  { observers := [], data := [], nextId := 1 }

/-- A finished method call. -/
structure Outcome (α : Type) where
  self : DatabaseSubject
  trace : Trace
  result : Except String α

/-- One callback of the `map` in `notify`: the request it issues and how its
promise settles, carrying the console line it wrote. -/
structure Notification where
  request : Delivery
  settled : Except String LogLine

/-- `Promise.all`: resolves when every promise resolved, rejects with the
first rejection. -/
def promiseAll {α : Type} : List (Except String α) → Except String (List α)
  | [] => .ok []
  | p :: ps =>
    match p with
    | .error e => .error e
    | .ok a =>
      match promiseAll ps with
      | .error e => .error e
      | .ok as => .ok (a :: as)

/-- In-place assignment to the first element satisfying `p` (the object that
`Array.prototype.find` returns is an element of the array). -/
def modifyFirst {α : Type} (p : α → Bool) (f : α → α) : List α → List α
  | [] => []
  | x :: xs => if p x then f x :: xs else x :: modifyFirst p f xs

namespace DatabaseSubject

/-- Subscribe an observer (register webhook). -/
def subscribe (self : DatabaseSubject) (observer : Observer) : Outcome Unit :=
  match self.observers.find? (fun obs => obs.id == observer.id) with
  | none =>
    { self := { self with observers := self.observers ++ [observer] },
      trace := { Trace.empty with log := [.subscribed observer.id observer.webhookUrl] },
      result := .ok () }
  | some _ => { self := self, trace := Trace.empty, result := .ok () }

/-- Unsubscribe an observer. -/
def unsubscribe (self : DatabaseSubject) (observerId : String) : Outcome Unit :=
  match self.observers.findIdx? (fun obs => obs.id == observerId) with
  | some index =>
    { self := { self with observers := self.observers.eraseIdx index },
      trace := { Trace.empty with log := [.unsubscribed observerId] },
      result := .ok () }
  | none => { self := self, trace := Trace.empty, result := .ok () }

/-- The async arrow function mapped over the observers: `try` the `fetch` and
log the status, `catch` any error and log it. -/
def notifyOne (env : Env) (payload : Payload) (index : Nat) (observer : Observer) :
    Notification :=
  { request := { url := observer.webhookUrl, body := payload },
    settled :=
      tryCatch
        (do let status ← env.fetch index observer.webhookUrl
            pure (LogLine.notified observer.id status))
        (fun error => pure (LogLine.failed observer.id error)) }

/-- Notify all observers via webhook. Returns the trace and how the promise of
`notify` settles. -/
def notify (self : DatabaseSubject) (env : Env) (event : String) (data : EventData) :
    Trace × Except String Unit :=
  let payload : Payload := { event := event, data := data, timestamp := env.now }
  let notifications := self.observers.enum.map (fun p => notifyOne env payload p.1 p.2)
  ({ events := [payload],
     deliveries := notifications.map (fun n => n.request),
     log := LogLine.notifying self.observers.length event ::
              notifications.filterMap (fun n => n.settled.toOption) },
   (promiseAll (notifications.map (fun n => n.settled))).map (fun _ => ()))

/-- Data operation `addData`. -/
def addData (self : DatabaseSubject) (env : Env) (name value : JsValue) : Outcome DataItem :=
  let item : DataItem := { id := self.nextId, name := name, value := value }
  let self1 : DatabaseSubject :=
    { self with nextId := self.nextId + 1, data := self.data ++ [item] }
  let n := self1.notify env "DATA_ADDED" (.item item)
  { self := self1, trace := n.1, result := n.2.map (fun _ => item) }

/-- Data operation `updateData`; `none` is `null`. -/
def updateData (self : DatabaseSubject) (env : Env) (id : Int) (name value : JsValue) :
    Outcome (Option DataItem) :=
  match self.data.find? (fun d => d.id == id) with
  | some item =>
    let item1 : DataItem := { item with name := name, value := value }
    let self1 : DatabaseSubject :=
      { self with
        data := modifyFirst (fun d => d.id == id)
                  (fun d => { d with name := name, value := value }) self.data }
    let n := self1.notify env "DATA_UPDATED" (.item item1)
    { self := self1, trace := n.1, result := n.2.map (fun _ => some item1) }
  | none => { self := self, trace := Trace.empty, result := .ok none }

/-- Data operation `deleteData`. -/
def deleteData (self : DatabaseSubject) (env : Env) (id : Int) : Outcome Bool :=
  match self.data.findIdx? (fun d => d.id == id) with
  | some index =>
    let self1 : DatabaseSubject := { self with data := self.data.eraseIdx index }
    let n := self1.notify env "DATA_DELETED" (.number id)
    { self := self1, trace := n.1, result := n.2.map (fun _ => true) }
  | none => { self := self, trace := Trace.empty, result := .ok false }

/-- Accessor `getData`. -/
def getData (self : DatabaseSubject) : List DataItem := self.data

/-- Accessor `getObservers`. -/
def getObservers (self : DatabaseSubject) : List Observer := self.observers

end DatabaseSubject

/-! ## Sequences of calls -/

/-- One call on the subject, with the outside world it runs in. -/
inductive Op where
  | subscribe (observer : Observer)
  | unsubscribe (observerId : String)
  | addData (env : Env) (name value : JsValue)
  | updateData (env : Env) (id : Int) (name value : JsValue)
  | deleteData (env : Env) (id : Int)

/-- What the caller of one call gets back. -/
inductive Reply where
  | void
  | item (d : DataItem)
  | itemOrNull (d : Option DataItem)
  | bool (b : Bool)
  | raised (error : String)
deriving DecidableEq, Repr

/-- The caller's view of a settled `Except`. -/
def Reply.ofResult {α : Type} (f : α → Reply) : Except String α → Reply
  | .ok a => f a
  | .error e => .raised e

/-- Run one call: the object afterwards and the reply. -/
def step (self : DatabaseSubject) : Op → DatabaseSubject × Reply
  | .subscribe observer =>
    let o := self.subscribe observer
    (o.self, Reply.ofResult (fun _ => .void) o.result)
  | .unsubscribe observerId =>
    let o := self.unsubscribe observerId
    (o.self, Reply.ofResult (fun _ => .void) o.result)
  | .addData env name value =>
    let o := self.addData env name value
    (o.self, Reply.ofResult .item o.result)
  | .updateData env id name value =>
    let o := self.updateData env id name value
    (o.self, Reply.ofResult .itemOrNull o.result)
  | .deleteData env id =>
    let o := self.deleteData env id
    (o.self, Reply.ofResult .bool o.result)

/-- Run a sequence of calls, one after the other: the final object and the
replies in call order. -/
def run (self : DatabaseSubject) : List Op → DatabaseSubject × List Reply
  | [] => (self, [])
  | op :: ops =>
    let s := step self op
    let r := run s.1 ops
    (r.1, s.2 :: r.2)

/-- The ids of the records handed back by the `addData` calls of a run. -/
def addedIds : List Reply → List Int
  | [] => []
  | .item d :: rs => d.id :: addedIds rs
  | _ :: rs => addedIds rs

/-- Whether a call is an `addData`. -/
def Op.isAdd : Op → Bool
  | .addData _ _ _ => true
  | _ => false

/-- An outside world where every webhook answers with status 200. -/
def Env.allReachable : Env :=
  { now := "2024-01-01T00:00:00.000Z", fetch := fun _ _ => .ok 200 }

/-- An outside world where every `fetch` throws a transport error. -/
def Env.allDown : Env :=
  { now := "2024-01-01T00:00:00.000Z", fetch := fun _ _ => .error "ECONNREFUSED" }

/-- A subject with two observers and two records, the second record created
after a first one was deleted. -/
def DatabaseSubject.sample : DatabaseSubject :=
  { observers := [{ id := "a", webhookUrl := "http://a/hook" },
                  { id := "b", webhookUrl := "http://b/hook" }],
    data := [{ id := 2, name := .string "n", value := .string "v" },
             { id := 3, name := .string "m", value := .string "w" }],
    nextId := 4 }

/-! ## The HTTP handlers of the data routes -/

/-- JavaScript truthiness, the test behind `!name` and `!value`: `undefined`,
`null`, `false`, `0` and the empty string are falsy, every other value is
truthy. -/
def truthy : JsValue → Bool
  | .undefined => false
  | .null => false
  | .bool b => b
  | .number n => n != 0
  | .string s => s != ""
  | .other _ => true

/-- The fields `name` and `value` destructured from `req.body`; a field that
the body does not have is `undefined`. -/
structure DataBody where
  name : JsValue
  value : JsValue
deriving DecidableEq, Repr

/-- The JSON documents the data handlers answer with. -/
inductive ResponseBody where
  | error (message : String)
  | item (d : DataItem)
deriving DecidableEq, Repr

/-- The status and body set on `res`. -/
structure Response where
  status : Nat
  body : ResponseBody
deriving DecidableEq, Repr

/-- A finished request: the subject afterwards, what was done to the outside,
and the response (or the error the async handler raised). -/
structure Handled where
  self : DatabaseSubject
  trace : Trace
  response : Except String Response

/-- Add data: the handler of `POST /data`. `body` is `req.body`; `none` is a
`req.body` that is `undefined`, on which the destructuring throws. -/
def postData (self : DatabaseSubject) (env : Env) (body : Option DataBody) : Handled :=
  match body with
  | none => { self := self, trace := Trace.empty, response := .error "TypeError" }
  | some b =>
    if !truthy b.name || !truthy b.value then
      { self := self, trace := Trace.empty,
        response := .ok { status := 400, body := .error "name and value are required" } }
    else
      let o := self.addData env b.name b.value
      { self := o.self, trace := o.trace,
        response := o.result.map (fun item => { status := 201, body := .item item }) }

/-- Update data: the handler of `PUT /data/:id`; `id` is the integer that
`parseInt` read from the path, `body` is as for `postData`. -/
def putData (self : DatabaseSubject) (env : Env) (id : Int) (body : Option DataBody) :
    Handled :=
  match body with
  | none => { self := self, trace := Trace.empty, response := .error "TypeError" }
  | some b =>
    if !truthy b.name || !truthy b.value then
      { self := self, trace := Trace.empty,
        response := .ok { status := 400, body := .error "name and value are required" } }
    else
      let o := self.updateData env id b.name b.value
      { self := o.self, trace := o.trace,
        response := o.result.map (fun item =>
          match item with
          | some d => { status := 200, body := .item d }
          | none => { status := 404, body := .error "Item not found" }) }

/-! ## The order of the effects of one asynchronous call -/

/-- A step of one asynchronous method call that the outside can observe. -/
inductive Effect where
  | applied (self : DatabaseSubject)
  | issued (d : Delivery)
  | settled (index : Nat)
  | returned (reply : Reply)
deriving DecidableEq, Repr

/-- The effects of `await this.notify(event, data)` followed by `return`, when
the requests settle in the order `completion` (positions in the observer list;
a position that is not listed never settles). The `map` calls every `fetch`
before anything is awaited; `Promise.all` resolves once the callback of every
observer has settled, and only then does the method hand `reply` to its
caller. -/
def notifyThenReturn (self : DatabaseSubject) (env : Env) (event : String)
    (data : EventData) (completion : List Nat) (reply : Reply) : List Effect :=
  (self.notify env event data).1.deliveries.map Effect.issued
    ++ ((completion.filter (fun i => i < self.observers.length)).dedup).map Effect.settled
    ++ (if (List.range self.observers.length).all (fun i => completion.contains i)
        then [Effect.returned reply] else [])

namespace DatabaseSubject

/-- The effects of `addData`, in order. -/
def addDataTimeline (self : DatabaseSubject) (env : Env) (name value : JsValue)
    (completion : List Nat) : List Effect :=
  let item : DataItem := { id := self.nextId, name := name, value := value }
  let self1 : DatabaseSubject :=
    { self with nextId := self.nextId + 1, data := self.data ++ [item] }
  Effect.applied self1
    :: notifyThenReturn self1 env "DATA_ADDED" (.item item) completion (.item item)

/-- The effects of `updateData`, in order. -/
def updateDataTimeline (self : DatabaseSubject) (env : Env) (id : Int)
    (name value : JsValue) (completion : List Nat) : List Effect :=
  match self.data.find? (fun d => d.id == id) with
  | some item =>
    let item1 : DataItem := { item with name := name, value := value }
    let self1 : DatabaseSubject :=
      { self with
        data := modifyFirst (fun d => d.id == id)
                  (fun d => { d with name := name, value := value }) self.data }
    Effect.applied self1
      :: notifyThenReturn self1 env "DATA_UPDATED" (.item item1) completion
          (.itemOrNull (some item1))
  | none => [Effect.returned (.itemOrNull none)]

/-- The effects of `deleteData`, in order. -/
def deleteDataTimeline (self : DatabaseSubject) (env : Env) (id : Int)
    (completion : List Nat) : List Effect :=
  match self.data.findIdx? (fun d => d.id == id) with
  | some index =>
    let self1 : DatabaseSubject := { self with data := self.data.eraseIdx index }
    Effect.applied self1
      :: notifyThenReturn self1 env "DATA_DELETED" (.number id) completion (.bool true)
  | none => [Effect.returned (.bool false)]

end DatabaseSubject

/-! ## Several `addData` calls in flight -/

/-- The event loop while `addData` calls overlap: the subject, the calls
suspended at `await this.notify(...)`, each holding its `item`, and the records
already returned to their callers. -/
structure InFlight where
  self : DatabaseSubject
  suspended : List DataItem
  returned : List DataItem
deriving DecidableEq, Repr

/-- What the event loop runs next: a new `addData` call, which runs without
interruption up to its `await`, or the rest of the suspended call at position
`k`, which returns its `item`. -/
inductive Turn where
  | call (env : Env) (name value : JsValue)
  | resume (k : Nat)

/-- One turn of the event loop. -/
def InFlight.turn (l : InFlight) : Turn → InFlight
  | .call env name value =>
    { self := (l.self.addData env name value).self,
      suspended := l.suspended ++ [{ id := l.self.nextId, name := name, value := value }],
      returned := l.returned }
  | .resume k =>
    match l.suspended[k]? with
    | some item =>
      { self := l.self, suspended := l.suspended.eraseIdx k,
        returned := l.returned ++ [item] }
    | none => l

/-- Any interleaving of calls and resumptions. -/
def InFlight.turns (l : InFlight) : List Turn → InFlight
  | [] => l
  | t :: ts => (l.turn t).turns ts

/-- Whether a turn starts a new `addData` call. -/
def Turn.isCall : Turn → Bool
  | .call _ _ _ => true
  | .resume _ => false

/-- The event loop with no `addData` call in flight. -/
def InFlight.start (self : DatabaseSubject) : InFlight :=
  { self := self, suspended := [], returned := [] }

/-! ## The fan-out -/

theorem promiseAll_ok {α : Type} (ps : List (Except String α))
    (h : ∀ p ∈ ps, ∃ a, p = .ok a) : ∃ as, promiseAll ps = .ok as := by
  induction ps with
  | nil => exact ⟨[], rfl⟩
  | cons p ps ih =>
    obtain ⟨a, ha⟩ := h p (List.mem_cons_self _ _)
    obtain ⟨as, has⟩ := ih (fun q hq => h q (List.mem_cons_of_mem _ hq))
    exact ⟨a :: as, by simp [promiseAll, ha, has]⟩

theorem notifyOne_settled_ok (env : Env) (payload : Payload) (index : Nat)
    (observer : Observer) :
    ∃ l, (DatabaseSubject.notifyOne env payload index observer).settled = .ok l := by
  unfold DatabaseSubject.notifyOne
  cases h : env.fetch index observer.webhookUrl with
  | ok status => exact ⟨.notified observer.id status, by simp [h, tryCatch, tryCatchThe, MonadExceptOf.tryCatch, Except.tryCatch, bind, Except.bind, pure, Except.pure]⟩
  | error e => exact ⟨.failed observer.id e, by simp [h, tryCatch, tryCatchThe, MonadExceptOf.tryCatch, Except.tryCatch, bind, Except.bind, pure, Except.pure]⟩

theorem notify_result (self : DatabaseSubject) (env : Env) (event : String)
    (data : EventData) : (self.notify env event data).2 = .ok () := by
  unfold DatabaseSubject.notify
  simp only
  have h := promiseAll_ok
    ((self.observers.enum.map (fun p => DatabaseSubject.notifyOne env
        { event := event, data := data, timestamp := env.now } p.1 p.2)).map
      (fun n => n.settled))
    (by
      intro p hp
      simp only [List.mem_map] at hp
      obtain ⟨n, ⟨q, _, hq⟩, hn⟩ := hp
      subst hq; subst hn
      exact notifyOne_settled_ok _ _ _ _)
  obtain ⟨as, has⟩ := h
  rw [has]; rfl

theorem notify_events (self : DatabaseSubject) (env : Env) (event : String)
    (data : EventData) :
    (self.notify env event data).1.events
      = [{ event := event, data := data, timestamp := env.now }] := rfl

theorem notify_deliveries (self : DatabaseSubject) (env : Env) (event : String)
    (data : EventData) :
    (self.notify env event data).1.deliveries
      = self.observers.map (fun o =>
          { url := o.webhookUrl,
            body := { event := event, data := data, timestamp := env.now } }) := by
  unfold DatabaseSubject.notify
  simp only [List.map_map]
  conv_rhs => rw [← List.enum_map_snd self.observers]
  simp only [List.map_map]
  rfl

/-! ## What each call returns and leaves behind -/

theorem addData_result (s : DatabaseSubject) (env : Env) (name value : JsValue) :
    (s.addData env name value).result
      = .ok { id := s.nextId, name := name, value := value } := by
  simp [DatabaseSubject.addData, notify_result, Except.map]

theorem addData_self (s : DatabaseSubject) (env : Env) (name value : JsValue) :
    (s.addData env name value).self
      = { observers := s.observers,
          data := s.data ++ [{ id := s.nextId, name := name, value := value }],
          nextId := s.nextId + 1 } := rfl

theorem updateData_absent (s : DatabaseSubject) (env : Env) (id : Int)
    (name value : JsValue) (h : s.data.find? (fun d => d.id == id) = none) :
    s.updateData env id name value
      = { self := s, trace := Trace.empty, result := .ok none } := by
  simp [DatabaseSubject.updateData, h]

theorem updateData_present (s : DatabaseSubject) (env : Env) (id : Int)
    (name value : JsValue) (item : DataItem)
    (h : s.data.find? (fun d => d.id == id) = some item) :
    (s.updateData env id name value).self
        = { observers := s.observers,
            data := modifyFirst (fun d => d.id == id)
                      (fun d => { d with name := name, value := value }) s.data,
            nextId := s.nextId }
      ∧ (s.updateData env id name value).result
        = .ok (some { id := item.id, name := name, value := value })
      ∧ (s.updateData env id name value).trace
        = ((s.updateData env id name value).self.notify env "DATA_UPDATED"
            (.item { id := item.id, name := name, value := value })).1 := by
  simp [DatabaseSubject.updateData, h, notify_result, Except.map]

theorem deleteData_absent (s : DatabaseSubject) (env : Env) (id : Int)
    (h : s.data.findIdx? (fun d => d.id == id) = none) :
    s.deleteData env id = { self := s, trace := Trace.empty, result := .ok false } := by
  simp [DatabaseSubject.deleteData, h]

theorem deleteData_present (s : DatabaseSubject) (env : Env) (id : Int) (index : Nat)
    (h : s.data.findIdx? (fun d => d.id == id) = some index) :
    (s.deleteData env id).self
        = { observers := s.observers, data := s.data.eraseIdx index, nextId := s.nextId }
      ∧ (s.deleteData env id).result = .ok true
      ∧ (s.deleteData env id).trace
        = ((s.deleteData env id).self.notify env "DATA_DELETED" (.number id)).1 := by
  simp [DatabaseSubject.deleteData, h, notify_result, Except.map]

theorem subscribe_result (s : DatabaseSubject) (o : Observer) :
    (s.subscribe o).result = .ok () := by
  unfold DatabaseSubject.subscribe
  split <;> rfl

theorem unsubscribe_result (s : DatabaseSubject) (observerId : String) :
    (s.unsubscribe observerId).result = .ok () := by
  unfold DatabaseSubject.unsubscribe
  split <;> rfl

theorem subscribe_frame (s : DatabaseSubject) (o : Observer) :
    (s.subscribe o).self.data = s.data ∧ (s.subscribe o).self.nextId = s.nextId := by
  unfold DatabaseSubject.subscribe
  split <;> exact ⟨rfl, rfl⟩

theorem unsubscribe_frame (s : DatabaseSubject) (observerId : String) :
    (s.unsubscribe observerId).self.data = s.data
      ∧ (s.unsubscribe observerId).self.nextId = s.nextId := by
  unfold DatabaseSubject.unsubscribe
  split <;> exact ⟨rfl, rfl⟩

theorem updateData_frame (s : DatabaseSubject) (env : Env) (id : Int)
    (name value : JsValue) :
    (s.updateData env id name value).self.observers = s.observers
      ∧ (s.updateData env id name value).self.nextId = s.nextId := by
  unfold DatabaseSubject.updateData
  split <;> exact ⟨rfl, rfl⟩

theorem deleteData_frame (s : DatabaseSubject) (env : Env) (id : Int) :
    (s.deleteData env id).self.observers = s.observers
      ∧ (s.deleteData env id).self.nextId = s.nextId := by
  unfold DatabaseSubject.deleteData
  split <;> exact ⟨rfl, rfl⟩

/-- A call other than `addData` keeps the counter and hands back no new
record; `addData` hands back the counter as id and increments it. -/
theorem step_counter (s : DatabaseSubject) (op : Op) :
    (op.isAdd = false ∧ (step s op).1.nextId = s.nextId
        ∧ ∀ rs, addedIds ((step s op).2 :: rs) = addedIds rs)
      ∨ (op.isAdd = true ∧ (step s op).1.nextId = s.nextId + 1
        ∧ ∀ rs, addedIds ((step s op).2 :: rs) = s.nextId :: addedIds rs) := by
  cases op with
  | subscribe o =>
    refine Or.inl ⟨rfl, (subscribe_frame s o).2, fun rs => ?_⟩
    simp [step, subscribe_result, Reply.ofResult, addedIds]
  | unsubscribe i =>
    refine Or.inl ⟨rfl, (unsubscribe_frame s i).2, fun rs => ?_⟩
    simp [step, unsubscribe_result, Reply.ofResult, addedIds]
  | addData env n v =>
    refine Or.inr ⟨rfl, rfl, fun rs => ?_⟩
    simp [step, addData_result, Reply.ofResult, addedIds]
  | updateData env i n v =>
    refine Or.inl ⟨rfl, (updateData_frame s env i n v).2, fun rs => ?_⟩
    cases h : s.data.find? (fun d => d.id == i) with
    | none => simp [step, updateData_absent s env i n v h, Reply.ofResult, addedIds]
    | some item =>
      simp [step, (updateData_present s env i n v item h).2.1, Reply.ofResult, addedIds]
  | deleteData env i =>
    refine Or.inl ⟨rfl, (deleteData_frame s env i).2, fun rs => ?_⟩
    cases h : s.data.findIdx? (fun d => d.id == i) with
    | none => simp [step, deleteData_absent s env i h, Reply.ofResult, addedIds]
    | some index =>
      simp [step, (deleteData_present s env i index h).2.1, Reply.ofResult, addedIds]

/-- The ids handed back by a run from any state: consecutive bounds, strictly
increasing, starting at the counter, one per `addData`. -/
theorem run_addedIds (ops : List Op) : ∀ s : DatabaseSubject,
    s.nextId ≤ (run s ops).1.nextId
      ∧ (∀ i ∈ addedIds (run s ops).2, s.nextId ≤ i ∧ i < (run s ops).1.nextId)
      ∧ (addedIds (run s ops).2).Pairwise (· < ·)
      ∧ (addedIds (run s ops).2 = [] ∨ (addedIds (run s ops).2).head? = some s.nextId)
      ∧ (addedIds (run s ops).2).length = ops.countP Op.isAdd := by
  induction ops with
  | nil => intro s; simp [run, addedIds]
  | cons op ops ih =>
    intro s
    obtain ⟨h1, h2, h3, h4, h5⟩ := ih (step s op).1
    simp only [run]
    rcases step_counter s op with ⟨ha, hn, hr⟩ | ⟨ha, hn, hr⟩
    · rw [hr, List.countP_cons, ha]
      rw [hn] at h1 h2 h4
      exact ⟨h1, h2, h3, h4, by simpa using h5⟩
    · rw [hr, List.countP_cons, ha]
      rw [hn] at h1 h2
      refine ⟨by omega, ?_, ?_, Or.inr rfl, by simpa using h5⟩
      · intro i hi
        rcases List.mem_cons.1 hi with rfl | hi
        · exact ⟨le_refl _, by omega⟩
        · have := h2 i hi; exact ⟨by omega, this.2⟩
      · exact List.pairwise_cons.2 ⟨fun i hi => by have := h2 i hi; omega, h3⟩

theorem find?_none_of_absent (l : List DataItem) (id : Int)
    (h : ∀ d ∈ l, d.id ≠ id) : l.find? (fun d => d.id == id) = none := by
  simp only [List.find?_eq_none]
  intro d hd
  simpa using h d hd

theorem findIdx?_none_of_absent (l : List DataItem) (id : Int)
    (h : ∀ d ∈ l, d.id ≠ id) : l.findIdx? (fun d => d.id == id) = none := by
  rw [List.findIdx?_eq_none_iff]
  intro d hd
  simpa using h d hd

theorem find?_some_of_present (l : List DataItem) (id : Int)
    (h : ∃ d ∈ l, d.id = id) :
    ∃ item, l.find? (fun d => d.id == id) = some item ∧ item.id = id := by
  cases hf : l.find? (fun d => d.id == id) with
  | none =>
    obtain ⟨d, hd, hid⟩ := h
    rw [List.find?_eq_none] at hf
    exact absurd (by simpa using hid) (hf d hd)
  | some item => exact ⟨item, rfl, by simpa using List.find?_some hf⟩

theorem findIdx?_some_of_present (l : List DataItem) (id : Int)
    (h : ∃ d ∈ l, d.id = id) :
    ∃ index, l.findIdx? (fun d => d.id == id) = some index := by
  cases hf : l.findIdx? (fun d => d.id == id) with
  | none =>
    obtain ⟨d, hd, hid⟩ := h
    rw [List.findIdx?_eq_none_iff] at hf
    have := hf d hd
    simp [hid] at this
  | some index => exact ⟨index, rfl⟩

theorem subscribe_present (s : DatabaseSubject) (o : Observer)
    (h : ∃ p ∈ s.observers, p.id = o.id) :
    s.subscribe o = { self := s, trace := Trace.empty, result := .ok () } := by
  unfold DatabaseSubject.subscribe
  cases hf : s.observers.find? (fun obs => obs.id == o.id) with
  | none =>
    obtain ⟨p, hp, hid⟩ := h
    rw [List.find?_eq_none] at hf
    exact absurd (by simpa using hid) (hf p hp)
  | some _ => rfl

theorem subscribe_absent (s : DatabaseSubject) (o : Observer)
    (h : ∀ p ∈ s.observers, p.id ≠ o.id) :
    (s.subscribe o).self = { s with observers := s.observers ++ [o] } := by
  unfold DatabaseSubject.subscribe
  have hf : s.observers.find? (fun obs => obs.id == o.id) = none := by
    simp only [List.find?_eq_none]
    intro p hp
    simpa using h p hp
  rw [hf]

theorem unsubscribe_absent (s : DatabaseSubject) (observerId : String)
    (h : ∀ p ∈ s.observers, p.id ≠ observerId) :
    s.unsubscribe observerId = { self := s, trace := Trace.empty, result := .ok () } := by
  unfold DatabaseSubject.unsubscribe
  have hf : s.observers.findIdx? (fun obs => obs.id == observerId) = none := by
    rw [List.findIdx?_eq_none_iff]
    intro p hp
    simpa using h p hp
  rw [hf]

/-- The observer list after `subscribe`: unchanged, or extended at the end by
an observer whose id was not there. -/
theorem subscribe_observers (s : DatabaseSubject) (o : Observer) :
    (s.subscribe o).self.observers = s.observers
      ∨ ((∀ p ∈ s.observers, p.id ≠ o.id)
          ∧ (s.subscribe o).self.observers = s.observers ++ [o]) := by
  by_cases h : ∃ p ∈ s.observers, p.id = o.id
  · exact Or.inl (by rw [subscribe_present s o h])
  · have h2 : ∀ p ∈ s.observers, p.id ≠ o.id := fun p hp hid => h ⟨p, hp, hid⟩
    exact Or.inr ⟨h2, by rw [subscribe_absent s o h2]⟩

/-- The observer list after `unsubscribe`: the old one with at most one
position erased. -/
theorem unsubscribe_observers (s : DatabaseSubject) (observerId : String) :
    (s.unsubscribe observerId).self.observers = s.observers
      ∨ ∃ index, (s.unsubscribe observerId).self.observers = s.observers.eraseIdx index := by
  unfold DatabaseSubject.unsubscribe
  split
  · exact Or.inr ⟨_, rfl⟩
  · exact Or.inl rfl

theorem step_observers_nodup (s : DatabaseSubject) (op : Op)
    (h : (s.observers.map (fun o => o.id)).Nodup) :
    ((step s op).1.observers.map (fun o => o.id)).Nodup := by
  cases op with
  | subscribe o =>
    simp only [step]
    rcases subscribe_observers s o with he | ⟨hab, he⟩
    · rw [he]; exact h
    · rw [he, List.map_append, List.map_singleton]
      refine List.Nodup.append h (List.nodup_singleton _) ?_
      intro i hi hi2
      obtain ⟨p, hp, rfl⟩ := List.mem_map.1 hi
      exact hab p hp (by simpa using hi2)
  | unsubscribe i =>
    simp only [step]
    rcases unsubscribe_observers s i with he | ⟨index, he⟩
    · rw [he]; exact h
    · rw [he]
      exact h.sublist ((List.eraseIdx_sublist _ _).map _)
  | addData env n v => exact h
  | updateData env i n v =>
    simp only [step]; rw [(updateData_frame s env i n v).1]; exact h
  | deleteData env i =>
    simp only [step]; rw [(deleteData_frame s env i).1]; exact h

theorem run_observers_nodup (ops : List Op) : ∀ s : DatabaseSubject,
    (s.observers.map (fun o => o.id)).Nodup →
    ((run s ops).1.observers.map (fun o => o.id)).Nodup := by
  induction ops with
  | nil => intro s h; exact h
  | cons op ops ih => intro s h; exact ih _ (step_observers_nodup s op h)

theorem modifyFirst_map {α β : Type} (p : α → Bool) (f : α → α) (g : α → β)
    (h : ∀ x, g (f x) = g x) (l : List α) : (modifyFirst p f l).map g = l.map g := by
  induction l with
  | nil => rfl
  | cons x xs ih =>
    unfold modifyFirst
    split
    · simp [h]
    · simp [ih]

/-- The record ids after `updateData` are the record ids before. -/
theorem updateData_ids (s : DatabaseSubject) (env : Env) (id : Int) (name value : JsValue) :
    (s.updateData env id name value).self.data.map (fun d => d.id)
      = s.data.map (fun d => d.id) := by
  unfold DatabaseSubject.updateData
  split
  · exact modifyFirst_map (fun d => d.id == id)
      (fun d => { d with name := name, value := value }) (fun d => d.id) (fun _ => rfl) s.data
  · rfl

/-- The record list after `deleteData`: the old one with at most one position
erased. -/
theorem deleteData_data (s : DatabaseSubject) (env : Env) (id : Int) :
    (s.deleteData env id).self.data = s.data
      ∨ ∃ index, (s.deleteData env id).self.data = s.data.eraseIdx index := by
  unfold DatabaseSubject.deleteData
  split
  · exact Or.inr ⟨_, rfl⟩
  · exact Or.inl rfl

/-- One call keeps the record ids strictly increasing and below the counter. -/
theorem step_records_ordered (s : DatabaseSubject) (op : Op)
    (h : (s.data.map (fun d => d.id)).Pairwise (· < ·)
          ∧ ∀ i ∈ s.data.map (fun d => d.id), i < s.nextId) :
    ((step s op).1.data.map (fun d => d.id)).Pairwise (· < ·)
      ∧ ∀ i ∈ (step s op).1.data.map (fun d => d.id), i < (step s op).1.nextId := by
  obtain ⟨hp, hb⟩ := h
  cases op with
  | subscribe o =>
    simp only [step]
    rw [(subscribe_frame s o).1, (subscribe_frame s o).2]; exact ⟨hp, hb⟩
  | unsubscribe i =>
    simp only [step]
    rw [(unsubscribe_frame s i).1, (unsubscribe_frame s i).2]; exact ⟨hp, hb⟩
  | addData env n v =>
    simp only [step, addData_self, List.map_append, List.map_singleton]
    refine ⟨List.pairwise_append.2 ⟨hp, List.pairwise_singleton _ _, ?_⟩, ?_⟩
    · intro a ha b hb2
      rw [List.mem_singleton.1 hb2]
      exact hb a ha
    · intro i hi
      rcases List.mem_append.1 hi with hi | hi
      · have := hb i hi; omega
      · rw [List.mem_singleton.1 hi]; omega
  | updateData env i n v =>
    simp only [step]
    rw [updateData_ids, (updateData_frame s env i n v).2]; exact ⟨hp, hb⟩
  | deleteData env i =>
    simp only [step]
    rw [(deleteData_frame s env i).2]
    rcases deleteData_data s env i with he | ⟨index, he⟩
    · rw [he]; exact ⟨hp, hb⟩
    · rw [he]
      have hsub : ((s.data.eraseIdx index).map (fun d => d.id)).Sublist
          (s.data.map (fun d => d.id)) := (List.eraseIdx_sublist _ _).map _
      exact ⟨hp.sublist hsub, fun j hj => hb j (hsub.subset hj)⟩

theorem run_records_ordered (ops : List Op) : ∀ s : DatabaseSubject,
    ((s.data.map (fun d => d.id)).Pairwise (· < ·)
      ∧ ∀ i ∈ s.data.map (fun d => d.id), i < s.nextId) →
    (((run s ops).1.data.map (fun d => d.id)).Pairwise (· < ·)
      ∧ ∀ i ∈ (run s ops).1.data.map (fun d => d.id), i < (run s ops).1.nextId) := by
  induction ops with
  | nil => intro s h; exact h
  | cons op ops ih => intro s h; exact ih _ (step_records_ordered s op h)

/-- The object found by `find` is, after the assignment, an element of the
array. -/
theorem modifyFirst_mem {α : Type} (p : α → Bool) (f : α → α) (l : List α) (x : α)
    (h : l.find? p = some x) : f x ∈ modifyFirst p f l := by
  induction l with
  | nil => simp at h
  | cons y ys ih =>
    unfold modifyFirst
    by_cases hy : p y = true
    · simp only [List.find?_cons, hy, Option.some.injEq] at h
      subst h
      simp [hy]
    · have hy2 : p y = false := by simpa using hy
      simp only [List.find?_cons, hy2] at h
      simp only [hy2]
      exact List.mem_cons_of_mem _ (ih h)

/-! ## The claims -/

/-- C1: over every sequence of calls on a fresh subject, the ids of the records
returned by the `addData` calls are strictly increasing in call order (hence
pairwise distinct: no id is handed out twice, also after a deletion), the
first one is 1, and every `addData` call does return a record. -/
theorem C1_added_ids_strictly_increasing (ops : List Op) :
    (addedIds (run DatabaseSubject.fresh ops).2).Pairwise (· < ·)
      ∧ (addedIds (run DatabaseSubject.fresh ops).2).Nodup
      ∧ (addedIds (run DatabaseSubject.fresh ops).2 = []
          ∨ (addedIds (run DatabaseSubject.fresh ops).2).head? = some 1)
      ∧ (addedIds (run DatabaseSubject.fresh ops).2).length = ops.countP Op.isAdd := by
  obtain ⟨_, _, h3, h4, h5⟩ := run_addedIds ops DatabaseSubject.fresh
  exact ⟨h3, h3.imp (fun h => ne_of_lt h), h4, h5⟩

/-- C2: every successful `addData`, `updateData` (id present) and `deleteData`
(id present) builds exactly one event, of kind DATA_ADDED, DATA_UPDATED,
DATA_DELETED respectively, and the requests it issues are exactly the observer
list mapped to (webhookUrl, that event). -/
theorem C2_one_event_delivered_to_each_observer (s : DatabaseSubject) (env : Env) :
    (∀ name value, ∃ payload item,
        (s.addData env name value).result = .ok item
          ∧ (s.addData env name value).trace.events = [payload]
          ∧ payload.event = "DATA_ADDED"
          ∧ (s.addData env name value).trace.deliveries
              = s.observers.map (fun o => { url := o.webhookUrl, body := payload }))
      ∧ (∀ id name value, (∃ d ∈ s.data, d.id = id) → ∃ payload item,
        (s.updateData env id name value).result = .ok (some item)
          ∧ (s.updateData env id name value).trace.events = [payload]
          ∧ payload.event = "DATA_UPDATED"
          ∧ (s.updateData env id name value).trace.deliveries
              = s.observers.map (fun o => { url := o.webhookUrl, body := payload }))
      ∧ (∀ id, (∃ d ∈ s.data, d.id = id) → ∃ payload,
        (s.deleteData env id).result = .ok true
          ∧ (s.deleteData env id).trace.events = [payload]
          ∧ payload.event = "DATA_DELETED"
          ∧ (s.deleteData env id).trace.deliveries
              = s.observers.map (fun o => { url := o.webhookUrl, body := payload })) := by
  refine ⟨fun name value => ?_, fun id name value h => ?_, fun id h => ?_⟩
  · exact ⟨_, _, addData_result s env name value, notify_events _ _ _ _, rfl,
      notify_deliveries _ _ _ _⟩
  · obtain ⟨item, hf, _⟩ := find?_some_of_present s.data id h
    obtain ⟨hs, hr, ht⟩ := updateData_present s env id name value item hf
    refine ⟨{ event := "DATA_UPDATED",
              data := .item { id := item.id, name := name, value := value },
              timestamp := env.now }, _, hr, ?_, rfl, ?_⟩
    · rw [ht]; exact notify_events _ _ _ _
    · rw [ht, notify_deliveries, hs]
  · obtain ⟨index, hf⟩ := findIdx?_some_of_present s.data id h
    obtain ⟨hs, hr, ht⟩ := deleteData_present s env id index hf
    refine ⟨{ event := "DATA_DELETED", data := .number id, timestamp := env.now },
      hr, ?_, rfl, ?_⟩
    · rw [ht]; exact notify_events _ _ _ _
    · rw [ht, notify_deliveries, hs]

/-- Witness of C2: updating record 2 of the sample subject, with every webhook
down, still issues one DATA_UPDATED request per observer. -/
theorem C2_one_event_delivered_to_each_observer_witness :
    ∃ payload item,
      (DatabaseSubject.sample.updateData Env.allDown 2 (.string "x") (.string "y")).result = .ok (some item)
        ∧ (DatabaseSubject.sample.updateData Env.allDown 2 (.string "x") (.string "y")).trace.events = [payload]
        ∧ payload.event = "DATA_UPDATED"
        ∧ (DatabaseSubject.sample.updateData Env.allDown 2 (.string "x") (.string "y")).trace.deliveries
            = DatabaseSubject.sample.observers.map
                (fun o => { url := o.webhookUrl, body := payload }) :=
  (C2_one_event_delivered_to_each_observer DatabaseSubject.sample Env.allDown).2.1 2 (.string "x") (.string "y")
    ⟨{ id := 2, name := .string "n", value := .string "v" }, by simp [DatabaseSubject.sample], rfl⟩

/-- C3: for an id that no current record has, `updateData` returns null and
`deleteData` returns false, with an empty trace (no event, no request, no log
line) and the subject (records, observers, counter) unchanged. -/
theorem C3_unknown_id_is_not_found (s : DatabaseSubject) (env : Env) (id : Int)
    (name value : JsValue) (h : ∀ d ∈ s.data, d.id ≠ id) :
    s.updateData env id name value
        = { self := s, trace := Trace.empty, result := .ok none }
      ∧ s.deleteData env id
        = { self := s, trace := Trace.empty, result := .ok false }
      ∧ Trace.empty.events = [] ∧ Trace.empty.deliveries = [] :=
  ⟨updateData_absent s env id name value (find?_none_of_absent s.data id h),
   deleteData_absent s env id (findIdx?_none_of_absent s.data id h), rfl, rfl⟩

/-- Witness of C3: id 999 on the fresh (empty) subject. -/
theorem C3_unknown_id_is_not_found_witness :
    DatabaseSubject.fresh.updateData Env.allReachable 999 (.string "n") (.string "v")
        = { self := DatabaseSubject.fresh, trace := Trace.empty, result := .ok none }
      ∧ DatabaseSubject.fresh.deleteData Env.allReachable 999
        = { self := DatabaseSubject.fresh, trace := Trace.empty, result := .ok false }
      ∧ Trace.empty.events = [] ∧ Trace.empty.deliveries = [] :=
  C3_unknown_id_is_not_found DatabaseSubject.fresh Env.allReachable 999 (.string "n") (.string "v")
    (by simp [DatabaseSubject.fresh])

/-- C4: two runs of the same mutation on the same subject, at the same clock
reading, that differ only in how the webhook requests settle (any status, or
a transport error) issue the same requests, hand the same result to the caller,
which is a value and never a raised error, and leave the same subject. When
the mutation fires (always for `addData`, id present for the other two) the
requests go to the webhookUrl of every observer, in list order. -/
theorem C4_delivery_outcomes_do_not_matter (s : DatabaseSubject) (e1 e2 : Env)
    (hclock : e1.now = e2.now) :
    (∀ name value,
        (s.addData e1 name value).trace.deliveries = (s.addData e2 name value).trace.deliveries
          ∧ (s.addData e1 name value).trace.deliveries.map (fun d => d.url)
              = s.observers.map (fun o => o.webhookUrl)
          ∧ (s.addData e1 name value).result = (s.addData e2 name value).result
          ∧ (∃ item, (s.addData e1 name value).result = .ok item)
          ∧ (s.addData e1 name value).self = (s.addData e2 name value).self)
      ∧ (∀ id name value,
        (s.updateData e1 id name value).trace.deliveries
            = (s.updateData e2 id name value).trace.deliveries
          ∧ ((∃ d ∈ s.data, d.id = id) →
              (s.updateData e1 id name value).trace.deliveries.map (fun d => d.url)
                = s.observers.map (fun o => o.webhookUrl))
          ∧ (s.updateData e1 id name value).result = (s.updateData e2 id name value).result
          ∧ (∃ r, (s.updateData e1 id name value).result = .ok r)
          ∧ (s.updateData e1 id name value).self = (s.updateData e2 id name value).self)
      ∧ (∀ id,
        (s.deleteData e1 id).trace.deliveries = (s.deleteData e2 id).trace.deliveries
          ∧ ((∃ d ∈ s.data, d.id = id) →
              (s.deleteData e1 id).trace.deliveries.map (fun d => d.url)
                = s.observers.map (fun o => o.webhookUrl))
          ∧ (s.deleteData e1 id).result = (s.deleteData e2 id).result
          ∧ (∃ r, (s.deleteData e1 id).result = .ok r)
          ∧ (s.deleteData e1 id).self = (s.deleteData e2 id).self) := by
  refine ⟨fun name value => ?_, fun id name value => ?_, fun id => ?_⟩
  · refine ⟨?_, ?_, ?_, ⟨_, addData_result s e1 name value⟩, rfl⟩
    · simp only [DatabaseSubject.addData, notify_deliveries, hclock]
    · simp only [DatabaseSubject.addData, notify_deliveries, List.map_map]
      rfl
    · rw [addData_result, addData_result]
  · cases hf : s.data.find? (fun d => d.id == id) with
    | none =>
      rw [updateData_absent s e1 id name value hf, updateData_absent s e2 id name value hf]
      refine ⟨rfl, fun h => ?_, rfl, ⟨_, rfl⟩, rfl⟩
      obtain ⟨item, hi, _⟩ := find?_some_of_present s.data id h
      rw [hf] at hi
      exact absurd hi (by simp)
    | some item =>
      obtain ⟨hs1, hr1, ht1⟩ := updateData_present s e1 id name value item hf
      obtain ⟨hs2, hr2, ht2⟩ := updateData_present s e2 id name value item hf
      refine ⟨?_, fun _ => ?_, by rw [hr1, hr2], ⟨_, hr1⟩, by rw [hs1, hs2]⟩
      · rw [ht1, ht2, notify_deliveries, notify_deliveries, hs1, hs2, hclock]
      · rw [ht1, notify_deliveries, hs1, List.map_map]
        rfl
  · cases hf : s.data.findIdx? (fun d => d.id == id) with
    | none =>
      rw [deleteData_absent s e1 id hf, deleteData_absent s e2 id hf]
      refine ⟨rfl, fun h => ?_, rfl, ⟨_, rfl⟩, rfl⟩
      obtain ⟨index, hi⟩ := findIdx?_some_of_present s.data id h
      rw [hf] at hi
      exact absurd hi (by simp)
    | some index =>
      obtain ⟨hs1, hr1, ht1⟩ := deleteData_present s e1 id index hf
      obtain ⟨hs2, hr2, ht2⟩ := deleteData_present s e2 id index hf
      refine ⟨?_, fun _ => ?_, by rw [hr1, hr2], ⟨_, hr1⟩, by rw [hs1, hs2]⟩
      · rw [ht1, ht2, notify_deliveries, notify_deliveries, hs1, hs2, hclock]
      · rw [ht1, notify_deliveries, hs1, List.map_map]
        rfl

/-- Witness of C4: deleting record 2 of the sample subject with every webhook
answering 200 and with every webhook down: same two requests, same result
`true`, same subject afterwards. -/
theorem C4_delivery_outcomes_do_not_matter_witness :
    (DatabaseSubject.sample.deleteData Env.allReachable 2).trace.deliveries
        = (DatabaseSubject.sample.deleteData Env.allDown 2).trace.deliveries
      ∧ ((∃ d ∈ DatabaseSubject.sample.data, d.id = 2) →
          (DatabaseSubject.sample.deleteData Env.allReachable 2).trace.deliveries.map
              (fun d => d.url)
            = DatabaseSubject.sample.observers.map (fun o => o.webhookUrl))
      ∧ (DatabaseSubject.sample.deleteData Env.allReachable 2).result
          = (DatabaseSubject.sample.deleteData Env.allDown 2).result
      ∧ (∃ r, (DatabaseSubject.sample.deleteData Env.allReachable 2).result = .ok r)
      ∧ (DatabaseSubject.sample.deleteData Env.allReachable 2).self
          = (DatabaseSubject.sample.deleteData Env.allDown 2).self :=
  (C4_delivery_outcomes_do_not_matter DatabaseSubject.sample Env.allReachable Env.allDown
    rfl).2.2 2

/-- C5: subscribing an observer whose id is already in the list changes
nothing: the subject is the same afterwards (same observers in the same order,
the entry keeping its webhookUrl whatever the new one is), nothing is logged
and nothing is raised; and, from any subject, subscribing the same observer a
second time gives the same subject as subscribing it once. -/
theorem C5_subscribe_existing_id_is_noop (s : DatabaseSubject) (o : Observer) :
    ((∃ p ∈ s.observers, p.id = o.id) →
        s.subscribe o = { self := s, trace := Trace.empty, result := .ok () })
      ∧ ((s.subscribe o).self.subscribe o).self = (s.subscribe o).self := by
  refine ⟨subscribe_present s o, ?_⟩
  have h : ∃ p ∈ (s.subscribe o).self.observers, p.id = o.id := by
    rcases subscribe_observers s o with he | ⟨_, he⟩
    · by_cases hp : ∃ p ∈ s.observers, p.id = o.id
      · rw [he]; exact hp
      · have hab : ∀ p ∈ s.observers, p.id ≠ o.id := fun p hp2 hid => hp ⟨p, hp2, hid⟩
        rw [subscribe_absent s o hab]
        exact ⟨o, by simp, rfl⟩
    · rw [he]; exact ⟨o, by simp, rfl⟩
  rw [subscribe_present _ o h]

/-- Witness of C5: re-subscribing id "a" of the sample subject with another
webhookUrl leaves the subject as it was. -/
theorem C5_subscribe_existing_id_is_noop_witness :
    DatabaseSubject.sample.subscribe { id := "a", webhookUrl := "http://elsewhere/hook" }
      = { self := DatabaseSubject.sample, trace := Trace.empty, result := .ok () } :=
  (C5_subscribe_existing_id_is_noop DatabaseSubject.sample
    { id := "a", webhookUrl := "http://elsewhere/hook" }).1
    ⟨{ id := "a", webhookUrl := "http://a/hook" }, by simp [DatabaseSubject.sample], rfl⟩

/-- C6: unsubscribing an id that no current observer has raises nothing, logs
nothing and leaves the whole subject (observers, records, counter) as it
was. -/
theorem C6_unsubscribe_unknown_id_is_noop (s : DatabaseSubject) (observerId : String)
    (h : ∀ p ∈ s.observers, p.id ≠ observerId) :
    s.unsubscribe observerId = { self := s, trace := Trace.empty, result := .ok () } :=
  unsubscribe_absent s observerId h

/-- Witness of C6: unsubscribing "zed" from the sample subject. -/
theorem C6_unsubscribe_unknown_id_is_noop_witness :
    DatabaseSubject.sample.unsubscribe "zed"
      = { self := DatabaseSubject.sample, trace := Trace.empty, result := .ok () } :=
  C6_unsubscribe_unknown_id_is_noop DatabaseSubject.sample "zed"
    (by simp [DatabaseSubject.sample])

/-- C7: after any sequence of calls on a fresh subject, no two observers in
the list returned by `getObservers` have the same id. -/
theorem C7_observer_ids_distinct (ops : List Op) :
    (((run DatabaseSubject.fresh ops).1.getObservers).map (fun o => o.id)).Nodup :=
  run_observers_nodup ops DatabaseSubject.fresh (by simp [DatabaseSubject.fresh])

/-- C8: after any sequence of calls on a fresh subject, the ids of the records
listed by `getData` are strictly increasing along the list (the order in which
`addData` created them), every one is below the next-id counter, and no two
records share an id. -/
theorem C8_records_in_insertion_order (ops : List Op) :
    (((run DatabaseSubject.fresh ops).1.getData).map (fun d => d.id)).Pairwise (· < ·)
      ∧ (∀ d ∈ (run DatabaseSubject.fresh ops).1.getData,
          d.id < (run DatabaseSubject.fresh ops).1.nextId)
      ∧ (((run DatabaseSubject.fresh ops).1.getData).map (fun d => d.id)).Nodup := by
  obtain ⟨hp, hb⟩ := run_records_ordered ops DatabaseSubject.fresh
    (by simp [DatabaseSubject.fresh])
  exact ⟨hp, fun d hd => hb d.id (List.mem_map_of_mem _ hd), hp.imp (fun h => ne_of_lt h)⟩

/-- C9: the payload of the event is fixed by its kind. `addData` fires
DATA_ADDED carrying the full record it created and returns (id = the counter,
the given name and value); `updateData` on a present id fires DATA_UPDATED
carrying the full record after the update, which it returns (same id, new name
and value); `deleteData` on a present id fires DATA_DELETED carrying only the
integer id. The timestamp is the clock reading. -/
theorem C9_payload_determined_by_kind (s : DatabaseSubject) (env : Env) :
    (∀ name value,
        (s.addData env name value).trace.events
            = [{ event := "DATA_ADDED",
                 data := .item { id := s.nextId, name := name, value := value },
                 timestamp := env.now }]
          ∧ (s.addData env name value).result
              = .ok { id := s.nextId, name := name, value := value }
          ∧ { id := s.nextId, name := name, value := value }
              ∈ (s.addData env name value).self.getData)
      ∧ (∀ id name value, (∃ d ∈ s.data, d.id = id) →
        (s.updateData env id name value).trace.events
            = [{ event := "DATA_UPDATED",
                 data := .item { id := id, name := name, value := value },
                 timestamp := env.now }]
          ∧ (s.updateData env id name value).result
              = .ok (some { id := id, name := name, value := value })
          ∧ { id := id, name := name, value := value }
              ∈ (s.updateData env id name value).self.getData)
      ∧ (∀ id, (∃ d ∈ s.data, d.id = id) →
        (s.deleteData env id).trace.events
            = [{ event := "DATA_DELETED", data := .number id, timestamp := env.now }]
          ∧ (s.deleteData env id).result = .ok true) := by
  refine ⟨fun name value => ?_, fun id name value h => ?_, fun id h => ?_⟩
  · exact ⟨notify_events _ _ _ _, addData_result s env name value, by
      simp [addData_self, DatabaseSubject.getData]⟩
  · obtain ⟨item, hf, hid⟩ := find?_some_of_present s.data id h
    obtain ⟨hs, hr, ht⟩ := updateData_present s env id name value item hf
    rw [hid] at hr ht
    refine ⟨by rw [ht]; exact notify_events _ _ _ _, hr, ?_⟩
    simp only [DatabaseSubject.getData, hs]
    have := modifyFirst_mem (fun d => d.id == id)
      (fun d => { d with name := name, value := value }) s.data item hf
    simpa [hid] using this
  · obtain ⟨index, hf⟩ := findIdx?_some_of_present s.data id h
    obtain ⟨_, hr, ht⟩ := deleteData_present s env id index hf
    exact ⟨by rw [ht]; exact notify_events _ _ _ _, hr⟩

/-- Witness of C9: deleting record 3 of the sample subject fires one
DATA_DELETED event whose data is the number 3. -/
theorem C9_payload_determined_by_kind_witness :
    (DatabaseSubject.sample.deleteData Env.allReachable 3).trace.events
        = [{ event := "DATA_DELETED", data := .number 3,
             timestamp := Env.allReachable.now }]
      ∧ (DatabaseSubject.sample.deleteData Env.allReachable 3).result = .ok true :=
  (C9_payload_determined_by_kind DatabaseSubject.sample Env.allReachable).2.2 3
    ⟨{ id := 3, name := .string "m", value := .string "w" }, by simp [DatabaseSubject.sample], rfl⟩

/-- C10: round trip on a fresh subject, for every n, v, n2, v2 and whatever
the webhooks do. After `addData(n, v)`, `getData` is exactly the one record
(1, n, v); after then `updateData(1, n2, v2)`, `getData` is exactly
(1, n2, v2), the call returned that record and fired exactly one event, a
DATA_UPDATED; after then `deleteData(1)`, `getData` is empty, the call
returned true and fired exactly one event, a DATA_DELETED with payload 1. -/
theorem C10_round_trip (e1 e2 e3 : Env) (n v n2 v2 : JsValue) :
    (DatabaseSubject.fresh.addData e1 n v).self.getData = [{ id := 1, name := n, value := v }]
      ∧ (DatabaseSubject.fresh.addData e1 n v).result = .ok { id := 1, name := n, value := v }
      ∧ ((DatabaseSubject.fresh.addData e1 n v).self.updateData e2 1 n2 v2).self.getData
          = [{ id := 1, name := n2, value := v2 }]
      ∧ ((DatabaseSubject.fresh.addData e1 n v).self.updateData e2 1 n2 v2).result
          = .ok (some { id := 1, name := n2, value := v2 })
      ∧ ((DatabaseSubject.fresh.addData e1 n v).self.updateData e2 1 n2 v2).trace.events
          = [{ event := "DATA_UPDATED",
               data := .item { id := 1, name := n2, value := v2 },
               timestamp := e2.now }]
      ∧ (((DatabaseSubject.fresh.addData e1 n v).self.updateData e2 1 n2 v2).self.deleteData
            e3 1).self.getData = []
      ∧ (((DatabaseSubject.fresh.addData e1 n v).self.updateData e2 1 n2 v2).self.deleteData
            e3 1).result = .ok true
      ∧ (((DatabaseSubject.fresh.addData e1 n v).self.updateData e2 1 n2 v2).self.deleteData
            e3 1).trace.events
          = [{ event := "DATA_DELETED", data := .number 1, timestamp := e3.now }] := by
  have hs1 : (DatabaseSubject.fresh.addData e1 n v).self
      = { observers := [], data := [{ id := 1, name := n, value := v }], nextId := 2 } := rfl
  have hf : (DatabaseSubject.fresh.addData e1 n v).self.data.find? (fun d => d.id == 1)
      = some { id := 1, name := n, value := v } := by
    rw [hs1]; simp
  obtain ⟨hs2, hr2, ht2⟩ :=
    updateData_present (DatabaseSubject.fresh.addData e1 n v).self e2 1 n2 v2 _ hf
  have hs2b : ((DatabaseSubject.fresh.addData e1 n v).self.updateData e2 1 n2 v2).self
      = { observers := [], data := [{ id := 1, name := n2, value := v2 }], nextId := 2 } := by
    rw [hs2, hs1]; simp [modifyFirst]
  have hf3 : ((DatabaseSubject.fresh.addData e1 n v).self.updateData e2 1 n2 v2).self.data.findIdx?
      (fun d => d.id == 1) = some 0 := by
    rw [hs2b]; simp [List.findIdx?_cons]
  obtain ⟨hs3, hr3, ht3⟩ := deleteData_present _ e3 1 0 hf3
  refine ⟨by rw [hs1]; rfl, addData_result _ e1 n v, by rw [hs2b]; rfl, hr2, ?_, ?_, hr3, ?_⟩
  · rw [ht2]; exact notify_events _ _ _ _
  · rw [hs3, hs2b]; rfl
  · rw [ht3]; exact notify_events _ _ _ _

/-! ## Splitting a list at the element a lookup finds -/

theorem find?_split {α : Type} (p : α → Bool) (l : List α) (x : α)
    (h : l.find? p = some x) :
    ∃ pre post, l = pre ++ x :: post ∧ p x = true ∧ ∀ a ∈ pre, p a = false := by
  obtain ⟨hx, pre, post, hl, hpre⟩ := List.find?_eq_some.1 h
  exact ⟨pre, post, hl, hx, fun a ha => by simpa using hpre a ha⟩

theorem modifyFirst_split {α : Type} (p : α → Bool) (f : α → α) (pre post : List α)
    (x : α) (hx : p x = true) (hpre : ∀ a ∈ pre, p a = false) :
    modifyFirst p f (pre ++ x :: post) = pre ++ f x :: post := by
  induction pre with
  | nil => simp [modifyFirst, hx]
  | cons a as ih =>
    have ha : p a = false := hpre a (List.mem_cons_self _ _)
    have hrec := ih (fun b hb => hpre b (List.mem_cons_of_mem _ hb))
    show modifyFirst p f (a :: (as ++ x :: post)) = a :: (as ++ f x :: post)
    unfold modifyFirst
    rw [ha, hrec]
    simp

theorem findIdx?_split_from {α : Type} (p : α → Bool) (l : List α) :
    ∀ (k i : Nat), l.findIdx? p k = some i →
      ∃ pre x post, l = pre ++ x :: post ∧ p x = true ∧ (∀ a ∈ pre, p a = false)
        ∧ i = k + pre.length := by
  induction l with
  | nil => intro k i h; simp at h
  | cons a as ih =>
    intro k i h
    rw [List.findIdx?_cons] at h
    by_cases ha : p a = true
    · rw [if_pos ha] at h
      exact ⟨[], a, as, rfl, ha, by simp, by simpa using (Option.some.inj h).symm⟩
    · rw [if_neg ha] at h
      obtain ⟨pre, x, post, hl, hx, hpre, hi⟩ := ih (k + 1) i h
      refine ⟨a :: pre, x, post, by rw [hl]; rfl, hx, ?_, by simp only [List.length_cons]; omega⟩
      intro b hb
      rcases List.mem_cons.1 hb with rfl | hb
      · simpa using ha
      · exact hpre b hb

theorem eraseIdx_split {α : Type} (pre post : List α) (x : α) :
    (pre ++ x :: post).eraseIdx pre.length = pre ++ post := by
  induction pre with
  | nil => rfl
  | cons a as ih => simp only [List.cons_append, List.length_cons, List.eraseIdx_cons_succ, ih]

/-- The position `findIndex` returns is that of the first match, and `splice`
at it takes out exactly that element. -/
theorem findIdx?_split {α : Type} (p : α → Bool) (l : List α) (i : Nat)
    (h : l.findIdx? p = some i) :
    ∃ pre x post, l = pre ++ x :: post ∧ p x = true ∧ (∀ a ∈ pre, p a = false)
      ∧ l.eraseIdx i = pre ++ post := by
  obtain ⟨pre, x, post, hl, hx, hpre, hi⟩ := findIdx?_split_from p l 0 i h
  refine ⟨pre, x, post, hl, hx, hpre, ?_⟩
  have hi2 : i = pre.length := by omega
  rw [hi2, hl]
  exact eraseIdx_split pre post x

/-- In a list whose keys are pairwise distinct, the elements around one of
them have other keys. -/
theorem others_ne_of_nodup {α β : Type} (f : α → β) (pre post : List α) (x : α)
    (h : ((pre ++ x :: post).map f).Nodup) : ∀ d ∈ pre ++ post, f d ≠ f x := by
  intro d hd heq
  rw [List.map_append, List.map_cons] at h
  have h1 := List.nodup_append.1 h
  rcases List.mem_append.1 hd with hd | hd
  · exact h1.2.2 (List.mem_map_of_mem f hd) (by rw [heq]; exact List.mem_cons_self _ _)
  · have h2 := List.nodup_cons.1 h1.2.1
    exact h2.1 (by rw [← heq]; exact List.mem_map_of_mem f hd)

theorem unsubscribe_present (s : DatabaseSubject) (observerId : String) (index : Nat)
    (h : s.observers.findIdx? (fun obs => obs.id == observerId) = some index) :
    (s.unsubscribe observerId).self
      = { observers := s.observers.eraseIdx index, data := s.data, nextId := s.nextId } := by
  simp [DatabaseSubject.unsubscribe, h]

theorem subscribe_no_event (s : DatabaseSubject) (o : Observer) :
    (s.subscribe o).trace.events = [] ∧ (s.subscribe o).trace.deliveries = [] := by
  unfold DatabaseSubject.subscribe
  split <;> exact ⟨rfl, rfl⟩

theorem unsubscribe_no_event (s : DatabaseSubject) (observerId : String) :
    (s.unsubscribe observerId).trace.events = []
      ∧ (s.unsubscribe observerId).trace.deliveries = [] := by
  unfold DatabaseSubject.unsubscribe
  split <;> exact ⟨rfl, rfl⟩

/-- C11: `addData` appends exactly one record at the end of the record list,
with the current counter as id and the given name and value; every earlier
record stays where it was; the counter goes up by one; the record is what the
call returns. -/
theorem C11_addData_appends_one_record (s : DatabaseSubject) (env : Env)
    (name value : JsValue) :
    (s.addData env name value).self.getData
        = s.getData ++ [{ id := s.nextId, name := name, value := value }]
      ∧ (∀ i, i < s.getData.length →
          (s.addData env name value).self.getData[i]? = s.getData[i]?)
      ∧ (s.addData env name value).self.getData.length = s.getData.length + 1
      ∧ (s.addData env name value).self.nextId = s.nextId + 1
      ∧ (s.addData env name value).result
          = .ok { id := s.nextId, name := name, value := value } := by
  refine ⟨rfl, fun i hi => ?_, ?_, rfl, addData_result s env name value⟩
  · simp only [addData_self, DatabaseSubject.getData] at hi ⊢
    exact List.getElem?_append_left hi
  · simp [addData_self, DatabaseSubject.getData]

/-- C12: in a state reached from a fresh subject, `updateData` on the id of a
current record replaces that record, at its position, by the record with the
same id and the new name and value, and returns it; the records before and
after it (none of which has that id) are unchanged, so the number and order of
records are unchanged; observers and counter are unchanged. -/
theorem C12_update_changes_only_that_record (ops : List Op) (env : Env) (id : Int)
    (name value : JsValue)
    (h : ∃ d ∈ (run DatabaseSubject.fresh ops).1.getData, d.id = id) :
    (∃ pre item post,
        (run DatabaseSubject.fresh ops).1.getData = pre ++ item :: post
          ∧ item.id = id
          ∧ (∀ d ∈ pre ++ post, d.id ≠ id)
          ∧ ((run DatabaseSubject.fresh ops).1.updateData env id name value).self.getData
              = pre ++ { id := id, name := name, value := value } :: post)
      ∧ ((run DatabaseSubject.fresh ops).1.updateData env id name value).self.getData.length
          = (run DatabaseSubject.fresh ops).1.getData.length
      ∧ ((run DatabaseSubject.fresh ops).1.updateData env id name value).result
          = .ok (some { id := id, name := name, value := value })
      ∧ ((run DatabaseSubject.fresh ops).1.updateData env id name value).self.observers
          = (run DatabaseSubject.fresh ops).1.observers
      ∧ ((run DatabaseSubject.fresh ops).1.updateData env id name value).self.nextId
          = (run DatabaseSubject.fresh ops).1.nextId := by
  have hnd : ((run DatabaseSubject.fresh ops).1.data.map (fun d => d.id)).Nodup :=
    (run_records_ordered ops DatabaseSubject.fresh (by simp [DatabaseSubject.fresh])).1.imp
      (fun h => ne_of_lt h)
  generalize (run DatabaseSubject.fresh ops).1 = s at h hnd ⊢
  obtain ⟨item, hf, hid⟩ := find?_some_of_present s.data id h
  obtain ⟨hs, hr, _⟩ := updateData_present s env id name value item hf
  obtain ⟨pre, post, hl, hx, hpre⟩ := find?_split _ _ _ hf
  have hdata : (s.updateData env id name value).self.getData
      = pre ++ { id := id, name := name, value := value } :: post := by
    simp only [DatabaseSubject.getData, hs]
    rw [hl, modifyFirst_split _ _ pre post item hx hpre, hid]
  refine ⟨⟨pre, item, post, hl, hid, ?_, hdata⟩, ?_, by rw [hr, hid],
    (updateData_frame s env id name value).1, (updateData_frame s env id name value).2⟩
  · rw [hl] at hnd
    intro d hd
    rw [← hid]
    exact others_ne_of_nodup (fun d => d.id) pre post item hnd d hd
  · rw [hdata]; simp [DatabaseSubject.getData, hl]

/-- Witness of C12: after two `addData` calls, updating record 2. -/
theorem C12_update_changes_only_that_record_witness :
    ((run DatabaseSubject.fresh
        [.addData Env.allDown (.string "a") (.string "b"), .addData Env.allDown (.string "c") (.string "d")]).1.updateData
          Env.allReachable 2 (.string "x") (.string "y")).result
      = .ok (some { id := 2, name := .string "x", value := .string "y" }) :=
  (C12_update_changes_only_that_record
    [.addData Env.allDown (.string "a") (.string "b"), .addData Env.allDown (.string "c") (.string "d")] Env.allReachable 2 (.string "x") (.string "y")
    ⟨{ id := 2, name := .string "c", value := .string "d" },
      by simp [run, step, DatabaseSubject.addData, DatabaseSubject.fresh,
        DatabaseSubject.getData], rfl⟩).2.2.1

/-- C13: in a state reached from a fresh subject, `deleteData` on the id of a
current record returns true and takes exactly that record out of the list,
the others keeping their order; afterwards no record has that id, a second
`deleteData` of it returns false and an `updateData` of it returns null. -/
theorem C13_delete_removes_that_record (ops : List Op) (env : Env) (id : Int)
    (h : ∃ d ∈ (run DatabaseSubject.fresh ops).1.getData, d.id = id) :
    ((run DatabaseSubject.fresh ops).1.deleteData env id).result = .ok true
      ∧ (∃ pre item post,
          (run DatabaseSubject.fresh ops).1.getData = pre ++ item :: post
            ∧ item.id = id
            ∧ ((run DatabaseSubject.fresh ops).1.deleteData env id).self.getData = pre ++ post)
      ∧ (∀ d ∈ ((run DatabaseSubject.fresh ops).1.deleteData env id).self.getData, d.id ≠ id)
      ∧ (∀ env2, (((run DatabaseSubject.fresh ops).1.deleteData env id).self.deleteData
            env2 id).result = .ok false)
      ∧ (∀ env2 name value,
          (((run DatabaseSubject.fresh ops).1.deleteData env id).self.updateData
            env2 id name value).result = .ok none) := by
  have hnd : ((run DatabaseSubject.fresh ops).1.data.map (fun d => d.id)).Nodup :=
    (run_records_ordered ops DatabaseSubject.fresh (by simp [DatabaseSubject.fresh])).1.imp
      (fun h => ne_of_lt h)
  generalize (run DatabaseSubject.fresh ops).1 = s at h hnd ⊢
  obtain ⟨index, hf⟩ := findIdx?_some_of_present s.data id h
  obtain ⟨hs, hr, _⟩ := deleteData_present s env id index hf
  obtain ⟨pre, item, post, hl, hx, _, he⟩ := findIdx?_split _ _ _ hf
  have hid : item.id = id := by simpa using hx
  have hdata : (s.deleteData env id).self.getData = pre ++ post := by
    simp only [DatabaseSubject.getData, hs]; exact he
  have hgone : ∀ d ∈ (s.deleteData env id).self.getData, d.id ≠ id := by
    rw [hdata, ← hid]
    rw [hl] at hnd
    exact others_ne_of_nodup (fun d => d.id) pre post item hnd
  refine ⟨hr, ⟨pre, item, post, hl, hid, hdata⟩, hgone, fun env2 => ?_,
    fun env2 name value => ?_⟩
  · rw [deleteData_absent _ env2 id (findIdx?_none_of_absent _ id hgone)]
  · rw [updateData_absent _ env2 id name value (find?_none_of_absent _ id hgone)]

/-- Witness of C13: after two `addData` calls, deleting record 1. -/
theorem C13_delete_removes_that_record_witness :
    ((run DatabaseSubject.fresh
        [.addData Env.allDown (.string "a") (.string "b"), .addData Env.allDown (.string "c") (.string "d")]).1.deleteData
          Env.allReachable 1).result = .ok true :=
  (C13_delete_removes_that_record
    [.addData Env.allDown (.string "a") (.string "b"), .addData Env.allDown (.string "c") (.string "d")] Env.allReachable 1
    ⟨{ id := 1, name := .string "a", value := .string "b" },
      by simp [run, step, DatabaseSubject.addData, DatabaseSubject.fresh,
        DatabaseSubject.getData], rfl⟩).1

/-- Every request of a data operation goes to the webhookUrl of an observer of
the subject it is called on. -/
theorem deliveries_to_observers (s : DatabaseSubject) (env : Env) :
    (∀ name value, ∀ d ∈ (s.addData env name value).trace.deliveries,
        ∃ o ∈ s.observers, d.url = o.webhookUrl)
      ∧ (∀ id name value, ∀ d ∈ (s.updateData env id name value).trace.deliveries,
        ∃ o ∈ s.observers, d.url = o.webhookUrl)
      ∧ (∀ id, ∀ d ∈ (s.deleteData env id).trace.deliveries,
        ∃ o ∈ s.observers, d.url = o.webhookUrl) := by
  have key : ∀ (t : DatabaseSubject) (event : String) (data : EventData),
      t.observers = s.observers → ∀ d ∈ (t.notify env event data).1.deliveries,
        ∃ o ∈ s.observers, d.url = o.webhookUrl := by
    intro t event data ht d hd
    rw [notify_deliveries, ht] at hd
    obtain ⟨o, ho, rfl⟩ := List.mem_map.1 hd
    exact ⟨o, ho, rfl⟩
  refine ⟨fun name value d hd => key _ _ _ rfl d hd, fun id name value d hd => ?_,
    fun id d hd => ?_⟩
  · cases hf : s.data.find? (fun d => d.id == id) with
    | none => rw [updateData_absent s env id name value hf] at hd; simp [Trace.empty] at hd
    | some item =>
      obtain ⟨hs, _, ht⟩ := updateData_present s env id name value item hf
      rw [ht] at hd
      exact key _ _ _ (by rw [hs]) d hd
  · cases hf : s.data.findIdx? (fun d => d.id == id) with
    | none => rw [deleteData_absent s env id hf] at hd; simp [Trace.empty] at hd
    | some index =>
      obtain ⟨hs, _, ht⟩ := deleteData_present s env id index hf
      rw [ht] at hd
      exact key _ _ _ (by rw [hs]) d hd

/-- C14: in a state reached from a fresh subject, `unsubscribe` of the id of a
current observer takes exactly that observer out of the list, the others
keeping their order; afterwards no observer has that id, and every request of
a later `addData`, `updateData` or `deleteData` goes to one of the remaining
observers. -/
theorem C14_unsubscribe_removes_that_observer (ops : List Op) (observerId : String)
    (h : ∃ o ∈ (run DatabaseSubject.fresh ops).1.getObservers, o.id = observerId) :
    (∃ pre o post,
        (run DatabaseSubject.fresh ops).1.getObservers = pre ++ o :: post
          ∧ o.id = observerId
          ∧ ((run DatabaseSubject.fresh ops).1.unsubscribe observerId).self.getObservers
              = pre ++ post)
      ∧ (∀ o ∈ ((run DatabaseSubject.fresh ops).1.unsubscribe observerId).self.getObservers,
          o.id ≠ observerId)
      ∧ (∀ env name value,
          ∀ d ∈ (((run DatabaseSubject.fresh ops).1.unsubscribe observerId).self.addData
              env name value).trace.deliveries,
            ∃ o ∈ ((run DatabaseSubject.fresh ops).1.unsubscribe observerId).self.getObservers,
              o.id ≠ observerId ∧ d.url = o.webhookUrl)
      ∧ (∀ env id name value,
          ∀ d ∈ (((run DatabaseSubject.fresh ops).1.unsubscribe observerId).self.updateData
              env id name value).trace.deliveries,
            ∃ o ∈ ((run DatabaseSubject.fresh ops).1.unsubscribe observerId).self.getObservers,
              o.id ≠ observerId ∧ d.url = o.webhookUrl)
      ∧ (∀ env id,
          ∀ d ∈ (((run DatabaseSubject.fresh ops).1.unsubscribe observerId).self.deleteData
              env id).trace.deliveries,
            ∃ o ∈ ((run DatabaseSubject.fresh ops).1.unsubscribe observerId).self.getObservers,
              o.id ≠ observerId ∧ d.url = o.webhookUrl) := by
  have hnd : ((run DatabaseSubject.fresh ops).1.observers.map (fun o => o.id)).Nodup :=
    run_observers_nodup ops DatabaseSubject.fresh (by simp [DatabaseSubject.fresh])
  generalize (run DatabaseSubject.fresh ops).1 = s at h hnd ⊢
  have hsome : ∃ index, s.observers.findIdx? (fun obs => obs.id == observerId) = some index := by
    cases hf : s.observers.findIdx? (fun obs => obs.id == observerId) with
    | none =>
      obtain ⟨o, ho, hid⟩ := h
      rw [List.findIdx?_eq_none_iff] at hf
      have := hf o ho
      simp [hid] at this
    | some index => exact ⟨index, rfl⟩
  obtain ⟨index, hf⟩ := hsome
  have hs := unsubscribe_present s observerId index hf
  obtain ⟨pre, o, post, hl, hx, _, he⟩ := findIdx?_split _ _ _ hf
  have hid : o.id = observerId := by simpa using hx
  have hobs : (s.unsubscribe observerId).self.getObservers = pre ++ post := by
    simp only [DatabaseSubject.getObservers, hs]; exact he
  have hgone : ∀ p ∈ (s.unsubscribe observerId).self.getObservers, p.id ≠ observerId := by
    rw [hobs, ← hid]
    rw [hl] at hnd
    exact others_ne_of_nodup (fun o => o.id) pre post o hnd
  obtain ⟨hadd, hupd, hdel⟩ : (∀ env : Env,
      (∀ name value, ∀ d ∈ ((s.unsubscribe observerId).self.addData env name value).trace.deliveries,
        ∃ o ∈ (s.unsubscribe observerId).self.observers, d.url = o.webhookUrl))
      ∧ (∀ env : Env, ∀ id name value,
        ∀ d ∈ ((s.unsubscribe observerId).self.updateData env id name value).trace.deliveries,
        ∃ o ∈ (s.unsubscribe observerId).self.observers, d.url = o.webhookUrl)
      ∧ (∀ env : Env, ∀ id,
        ∀ d ∈ ((s.unsubscribe observerId).self.deleteData env id).trace.deliveries,
        ∃ o ∈ (s.unsubscribe observerId).self.observers, d.url = o.webhookUrl) :=
    ⟨fun env => (deliveries_to_observers _ env).1,
     fun env => (deliveries_to_observers _ env).2.1,
     fun env => (deliveries_to_observers _ env).2.2⟩
  refine ⟨⟨pre, o, post, hl, hid, hobs⟩, hgone, ?_, ?_, ?_⟩
  · intro env name value d hd
    obtain ⟨p, hp, hu⟩ := hadd env name value d hd
    exact ⟨p, hp, hgone p hp, hu⟩
  · intro env id name value d hd
    obtain ⟨p, hp, hu⟩ := hupd env id name value d hd
    exact ⟨p, hp, hgone p hp, hu⟩
  · intro env id d hd
    obtain ⟨p, hp, hu⟩ := hdel env id d hd
    exact ⟨p, hp, hgone p hp, hu⟩

/-- Witness of C14: two observers subscribed, the first one unsubscribed: the
second one is what is left. -/
theorem C14_unsubscribe_removes_that_observer_witness :
    ∃ pre o post,
      (run DatabaseSubject.fresh
          [.subscribe { id := "a", webhookUrl := "http://a/hook" },
           .subscribe { id := "b", webhookUrl := "http://b/hook" }]).1.getObservers
          = pre ++ o :: post
        ∧ o.id = "a"
        ∧ ((run DatabaseSubject.fresh
            [.subscribe { id := "a", webhookUrl := "http://a/hook" },
             .subscribe { id := "b", webhookUrl := "http://b/hook" }]).1.unsubscribe
              "a").self.getObservers = pre ++ post :=
  (C14_unsubscribe_removes_that_observer
    [.subscribe { id := "a", webhookUrl := "http://a/hook" },
     .subscribe { id := "b", webhookUrl := "http://b/hook" }] "a"
    ⟨{ id := "a", webhookUrl := "http://a/hook" },
      by simp [run, step, DatabaseSubject.subscribe, DatabaseSubject.fresh,
        DatabaseSubject.getObservers], rfl⟩).1

/-- C18: the two halves of the subject are independent. `addData`,
`updateData` and `deleteData` leave the observer list as it was; `subscribe`
and `unsubscribe` leave the record list and the counter as they were, build no
event and issue no request. -/
theorem C18_observers_and_records_independent (s : DatabaseSubject) (env : Env) :
    (∀ name value, (s.addData env name value).self.observers = s.observers)
      ∧ (∀ id name value, (s.updateData env id name value).self.observers = s.observers)
      ∧ (∀ id, (s.deleteData env id).self.observers = s.observers)
      ∧ (∀ o, (s.subscribe o).self.data = s.data
          ∧ (s.subscribe o).self.nextId = s.nextId
          ∧ (s.subscribe o).trace.events = []
          ∧ (s.subscribe o).trace.deliveries = [])
      ∧ (∀ observerId, (s.unsubscribe observerId).self.data = s.data
          ∧ (s.unsubscribe observerId).self.nextId = s.nextId
          ∧ (s.unsubscribe observerId).trace.events = []
          ∧ (s.unsubscribe observerId).trace.deliveries = []) :=
  ⟨fun _ _ => rfl,
   fun id name value => (updateData_frame s env id name value).1,
   fun id => (deleteData_frame s env id).1,
   fun o => ⟨(subscribe_frame s o).1, (subscribe_frame s o).2,
     (subscribe_no_event s o).1, (subscribe_no_event s o).2⟩,
   fun i => ⟨(unsubscribe_frame s i).1, (unsubscribe_frame s i).2,
     (unsubscribe_no_event s i).1, (unsubscribe_no_event s i).2⟩⟩

/-- C19: for an observer whose id is not in the list, `subscribe` appends it at
the end of the list, and `unsubscribe` of that id right after gives back the
original observer list (and the original subject altogether). -/
theorem C19_subscribe_then_unsubscribe (s : DatabaseSubject) (o : Observer)
    (h : ∀ p ∈ s.getObservers, p.id ≠ o.id) :
    (s.subscribe o).self.getObservers = s.getObservers ++ [o]
      ∧ ((s.subscribe o).self.unsubscribe o.id).self.getObservers = s.getObservers
      ∧ ((s.subscribe o).self.unsubscribe o.id).self = s := by
  have hsub := subscribe_absent s o h
  have hnone : s.observers.findIdx? (fun obs => obs.id == o.id) = none := by
    rw [List.findIdx?_eq_none_iff]
    intro p hp
    simpa using h p hp
  have hidx : (s.subscribe o).self.observers.findIdx? (fun obs => obs.id == o.id)
      = some s.observers.length := by
    rw [hsub]
    simp [List.findIdx?_append, hnone]
  have hun := unsubscribe_present (s.subscribe o).self o.id _ hidx
  have herase : (s.subscribe o).self.observers.eraseIdx s.observers.length = s.observers := by
    rw [hsub]
    simpa using eraseIdx_split s.observers [] o
  refine ⟨by rw [hsub]; rfl, ?_, ?_⟩
  · simp only [DatabaseSubject.getObservers, hun, herase]
  · rw [hun, herase, (subscribe_frame s o).1, (subscribe_frame s o).2]

/-- Witness of C19: subscribing "c" to the sample subject and unsubscribing it
again. -/
theorem C19_subscribe_then_unsubscribe_witness :
    (DatabaseSubject.sample.subscribe { id := "c", webhookUrl := "http://c/hook" }).self.getObservers
        = DatabaseSubject.sample.getObservers ++ [{ id := "c", webhookUrl := "http://c/hook" }]
      ∧ ((DatabaseSubject.sample.subscribe
            { id := "c", webhookUrl := "http://c/hook" }).self.unsubscribe "c").self.getObservers
          = DatabaseSubject.sample.getObservers
      ∧ ((DatabaseSubject.sample.subscribe
            { id := "c", webhookUrl := "http://c/hook" }).self.unsubscribe "c").self
          = DatabaseSubject.sample :=
  C19_subscribe_then_unsubscribe DatabaseSubject.sample
    { id := "c", webhookUrl := "http://c/hook" }
    (by simp [DatabaseSubject.sample, DatabaseSubject.getObservers])



theorem truthy_false_iff (v : JsValue) :
    truthy v = false
      ↔ v = .undefined ∨ v = .null ∨ v = .bool false ∨ v = .number 0 ∨ v = .string "" := by
  cases v <;> simp [truthy]

theorem postData_falsy (s : DatabaseSubject) (env : Env) (body : DataBody)
    (h : truthy body.name = false ∨ truthy body.value = false) :
    postData s env (some body)
      = { self := s, trace := Trace.empty,
          response := .ok { status := 400, body := .error "name and value are required" } } := by
  have hfalsy : (!truthy body.name || !truthy body.value) = true := by
    rcases h with h | h <;> simp [h]
  simp only [postData]
  rw [if_pos hfalsy]

theorem putData_falsy (s : DatabaseSubject) (env : Env) (id : Int) (body : DataBody)
    (h : truthy body.name = false ∨ truthy body.value = false) :
    putData s env id (some body)
      = { self := s, trace := Trace.empty,
          response := .ok { status := 400, body := .error "name and value are required" } } := by
  have hfalsy : (!truthy body.name || !truthy body.value) = true := by
    rcases h with h | h <;> simp [h]
  simp only [putData]
  rw [if_pos hfalsy]

/-- C15, as stated, fails: with both fields present in the body, name being the
number 0 and value the string "v", `POST /data` on the sample subject answers
400 and not 201, and `PUT /data/2` on the present id 2 answers 400 as well;
the subject is left as it was. -/
theorem C15_present_fields_can_be_refused :
    (({ name := .number 0, value := .string "v" } : DataBody).name ≠ .undefined
      ∧ ({ name := .number 0, value := .string "v" } : DataBody).value ≠ .undefined)
      ∧ postData DatabaseSubject.sample Env.allReachable
          (some { name := .number 0, value := .string "v" })
        = { self := DatabaseSubject.sample, trace := Trace.empty,
            response := .ok { status := 400, body := .error "name and value are required" } }
      ∧ putData DatabaseSubject.sample Env.allReachable 2
          (some { name := .number 0, value := .string "v" })
        = { self := DatabaseSubject.sample, trace := Trace.empty,
            response := .ok { status := 400,
                              body := .error "name and value are required" } } :=
  ⟨⟨by decide, by decide⟩,
   postData_falsy _ _ _ (Or.inl rfl), putData_falsy _ _ _ _ (Or.inl rfl)⟩

/-- C15, amended: the handlers of `POST /data` and `PUT /data/:id` answer 400
when name or value is falsy, that is missing, null, false, 0 or the empty
string, leaving the subject as it was and with an empty trace (no event); for
PUT this holds for every id, known or not. With both fields truthy, PUT on an
id that no record has answers 404 (subject unchanged, no event), and POST
answers 201 with the record that `addData` created from the two fields. -/
theorem C15_data_routes_validate_first (s : DatabaseSubject) (env : Env) :
    (∀ v : JsValue, truthy v = false
        ↔ v = .undefined ∨ v = .null ∨ v = .bool false ∨ v = .number 0 ∨ v = .string "")
      ∧ (∀ body : DataBody, (truthy body.name = false ∨ truthy body.value = false) →
        postData s env (some body)
            = { self := s, trace := Trace.empty,
                response := .ok { status := 400, body := .error "name and value are required" } }
          ∧ ∀ id, putData s env id (some body)
            = { self := s, trace := Trace.empty,
                response := .ok { status := 400,
                                  body := .error "name and value are required" } })
      ∧ (∀ id (body : DataBody), truthy body.name = true → truthy body.value = true →
        (∀ d ∈ s.data, d.id ≠ id) →
        putData s env id (some body)
          = { self := s, trace := Trace.empty,
              response := .ok { status := 404, body := .error "Item not found" } })
      ∧ (∀ body : DataBody, truthy body.name = true → truthy body.value = true →
        (postData s env (some body)).response
            = .ok { status := 201,
                    body := .item { id := s.nextId, name := body.name, value := body.value } }
          ∧ (postData s env (some body)).self = (s.addData env body.name body.value).self
          ∧ (postData s env (some body)).trace
              = (s.addData env body.name body.value).trace) := by
  refine ⟨truthy_false_iff, fun body h => ⟨postData_falsy s env body h,
    fun id => putData_falsy s env id body h⟩, fun id body hn hv hab => ?_,
    fun body hn hv => ?_⟩
  · have hok : ¬ ((!truthy body.name || !truthy body.value) = true) := by simp [hn, hv]
    simp only [putData]
    rw [if_neg hok]
    rw [updateData_absent s env id body.name body.value (find?_none_of_absent s.data id hab)]
    rfl
  · have hok : ¬ ((!truthy body.name || !truthy body.value) = true) := by simp [hn, hv]
    have hpost : postData s env (some body)
        = { self := (s.addData env body.name body.value).self,
            trace := (s.addData env body.name body.value).trace,
            response := (s.addData env body.name body.value).result.map
              (fun item => { status := 201, body := .item item }) } := by
      simp only [postData]
      rw [if_neg hok]
    rw [hpost]
    refine ⟨?_, rfl, rfl⟩
    simp only [addData_result]
    rfl

/-- Witness of C15 amended: `PUT /data/77` on the sample subject with the
value missing is answered 400, although no record has id 77. -/
theorem C15_data_routes_validate_first_witness :
    postData DatabaseSubject.sample Env.allReachable
        (some { name := .string "a", value := .undefined })
        = { self := DatabaseSubject.sample, trace := Trace.empty,
            response := .ok { status := 400, body := .error "name and value are required" } }
      ∧ putData DatabaseSubject.sample Env.allReachable 77
          (some { name := .string "a", value := .undefined })
        = { self := DatabaseSubject.sample, trace := Trace.empty,
            response := .ok { status := 400,
                              body := .error "name and value are required" } } :=
  ⟨((C15_data_routes_validate_first DatabaseSubject.sample Env.allReachable).2.1
      { name := .string "a", value := .undefined } (Or.inr rfl)).1,
   ((C15_data_routes_validate_first DatabaseSubject.sample Env.allReachable).2.1
      { name := .string "a", value := .undefined } (Or.inr rfl)).2 77⟩

/-! ## The result and the deliveries in time -/

theorem all_settled_iff (n : Nat) (completion : List Nat) :
    (List.range n).all (fun i => completion.contains i) = true ↔ ∀ i < n, i ∈ completion := by
  simp [List.all_eq_true, List.mem_range]

/-- When every request settles, `notify` then `return` ends with the result,
after every request was issued and has settled. -/
theorem notifyThenReturn_settled (self : DatabaseSubject) (env : Env) (event : String)
    (data : EventData) (completion : List Nat) (reply : Reply)
    (h : ∀ i < self.observers.length, i ∈ completion) :
    ∃ pre, notifyThenReturn self env event data completion reply
        = pre ++ [Effect.returned reply]
      ∧ (∀ i < self.observers.length, Effect.settled i ∈ pre)
      ∧ (∀ d ∈ (self.notify env event data).1.deliveries, Effect.issued d ∈ pre)
      ∧ (∀ r, Effect.returned r ∉ pre) := by
  refine ⟨(self.notify env event data).1.deliveries.map Effect.issued
    ++ ((completion.filter (fun i => i < self.observers.length)).dedup).map Effect.settled,
    ?_, ?_, ?_, ?_⟩
  · unfold notifyThenReturn
    rw [if_pos ((all_settled_iff _ _).2 h)]
  · intro i hi
    refine List.mem_append_right _ (List.mem_map_of_mem _ ?_)
    rw [List.mem_dedup, List.mem_filter]
    exact ⟨h i hi, by simpa using hi⟩
  · intro d hd
    exact List.mem_append_left _ (List.mem_map_of_mem _ hd)
  · intro r hr
    rcases List.mem_append.1 hr with hr | hr
    · obtain ⟨_, _, he⟩ := List.mem_map.1 hr
      exact Effect.noConfusion he
    · obtain ⟨_, _, he⟩ := List.mem_map.1 hr
      exact Effect.noConfusion he

/-- When some request never settles, `notify` then `return` never hands over
the result. -/
theorem notifyThenReturn_pending (self : DatabaseSubject) (env : Env) (event : String)
    (data : EventData) (completion : List Nat) (reply : Reply)
    (h : ∃ i < self.observers.length, i ∉ completion) :
    ∀ r, Effect.returned r ∉ notifyThenReturn self env event data completion reply := by
  intro r hr
  have hcond : ¬ ((List.range self.observers.length).all (fun i => completion.contains i)
      = true) := by
    rw [all_settled_iff]
    obtain ⟨i, hi, hni⟩ := h
    exact fun hall => hni (hall i hi)
  unfold notifyThenReturn at hr
  rw [if_neg hcond, List.append_nil] at hr
  rcases List.mem_append.1 hr with hr | hr
  · obtain ⟨_, _, he⟩ := List.mem_map.1 hr
    exact Effect.noConfusion he
  · obtain ⟨_, _, he⟩ := List.mem_map.1 hr
    exact Effect.noConfusion he

/-- C16, as stated, fails: on the sample subject (two observers) the result of
`addData` comes last, after both requests have settled; and when the request
to the second observer never settles the result is never handed over. -/
theorem C16_result_is_not_fire_and_forget :
    DatabaseSubject.sample.addDataTimeline Env.allReachable (.string "n") (.string "v") [1, 0]
        = [Effect.applied (DatabaseSubject.sample.addData Env.allReachable (.string "n") (.string "v")).self,
           Effect.issued { url := "http://a/hook",
                           body := { event := "DATA_ADDED",
                                     data := .item { id := 4, name := .string "n", value := .string "v" },
                                     timestamp := Env.allReachable.now } },
           Effect.issued { url := "http://b/hook",
                           body := { event := "DATA_ADDED",
                                     data := .item { id := 4, name := .string "n", value := .string "v" },
                                     timestamp := Env.allReachable.now } },
           Effect.settled 1,
           Effect.settled 0,
           Effect.returned (.item { id := 4, name := .string "n", value := .string "v" })]
      ∧ DatabaseSubject.sample.addDataTimeline Env.allReachable (.string "n") (.string "v") [0]
        = [Effect.applied (DatabaseSubject.sample.addData Env.allReachable (.string "n") (.string "v")).self,
           Effect.issued { url := "http://a/hook",
                           body := { event := "DATA_ADDED",
                                     data := .item { id := 4, name := .string "n", value := .string "v" },
                                     timestamp := Env.allReachable.now } },
           Effect.issued { url := "http://b/hook",
                           body := { event := "DATA_ADDED",
                                     data := .item { id := 4, name := .string "n", value := .string "v" },
                                     timestamp := Env.allReachable.now } },
           Effect.settled 0] := by
  constructor <;> decide

/-- C16, amended: the result of a successful `addData`, `updateData` or
`deleteData` is handed to the caller only after the fan-out has completed.
If every request settles (with any status or with a caught transport error),
the effects of the call end with the result, and before it every request of
the call was issued and has settled; if some request never settles, the result
is never handed over. -/
theorem C16_result_after_all_deliveries (s : DatabaseSubject) (env : Env)
    (completion : List Nat) :
    (∀ name value,
        ((∀ i < s.observers.length, i ∈ completion) →
          ∃ pre, s.addDataTimeline env name value completion
              = pre ++ [Effect.returned (.item { id := s.nextId, name := name, value := value })]
            ∧ (∀ i < s.observers.length, Effect.settled i ∈ pre)
            ∧ (∀ d ∈ (s.addData env name value).trace.deliveries, Effect.issued d ∈ pre)
            ∧ (∀ r, Effect.returned r ∉ pre))
          ∧ ((∃ i < s.observers.length, i ∉ completion) →
              ∀ r, Effect.returned r ∉ s.addDataTimeline env name value completion))
      ∧ (∀ id name value, (∃ d ∈ s.data, d.id = id) →
        ((∀ i < s.observers.length, i ∈ completion) →
          ∃ pre, s.updateDataTimeline env id name value completion
              = pre ++ [Effect.returned
                  (.itemOrNull (some { id := id, name := name, value := value }))]
            ∧ (∀ i < s.observers.length, Effect.settled i ∈ pre)
            ∧ (∀ d ∈ (s.updateData env id name value).trace.deliveries, Effect.issued d ∈ pre)
            ∧ (∀ r, Effect.returned r ∉ pre))
          ∧ ((∃ i < s.observers.length, i ∉ completion) →
              ∀ r, Effect.returned r ∉ s.updateDataTimeline env id name value completion))
      ∧ (∀ id, (∃ d ∈ s.data, d.id = id) →
        ((∀ i < s.observers.length, i ∈ completion) →
          ∃ pre, s.deleteDataTimeline env id completion
              = pre ++ [Effect.returned (.bool true)]
            ∧ (∀ i < s.observers.length, Effect.settled i ∈ pre)
            ∧ (∀ d ∈ (s.deleteData env id).trace.deliveries, Effect.issued d ∈ pre)
            ∧ (∀ r, Effect.returned r ∉ pre))
          ∧ ((∃ i < s.observers.length, i ∉ completion) →
              ∀ r, Effect.returned r ∉ s.deleteDataTimeline env id completion)) := by
  have cons_settled : ∀ (t : DatabaseSubject) (event : String) (data : EventData)
      (reply : Reply), t.observers = s.observers →
      (∀ i < s.observers.length, i ∈ completion) →
      ∃ pre, Effect.applied t :: notifyThenReturn t env event data completion reply
          = pre ++ [Effect.returned reply]
        ∧ (∀ i < s.observers.length, Effect.settled i ∈ pre)
        ∧ (∀ d ∈ (t.notify env event data).1.deliveries, Effect.issued d ∈ pre)
        ∧ (∀ r, Effect.returned r ∉ pre) := by
    intro t event data reply ht h
    obtain ⟨pre, he, h1, h2, h3⟩ :=
      notifyThenReturn_settled t env event data completion reply (by rw [ht]; exact h)
    refine ⟨Effect.applied t :: pre, by rw [he]; rfl, ?_, ?_, ?_⟩
    · intro i hi; exact List.mem_cons_of_mem _ (h1 i (by rw [ht]; exact hi))
    · intro d hd; exact List.mem_cons_of_mem _ (h2 d hd)
    · intro r hr
      rcases List.mem_cons.1 hr with he2 | hr
      · exact Effect.noConfusion he2
      · exact h3 r hr
  have cons_pending : ∀ (t : DatabaseSubject) (event : String) (data : EventData)
      (reply : Reply), t.observers = s.observers →
      (∃ i < s.observers.length, i ∉ completion) →
      ∀ r, Effect.returned r
        ∉ Effect.applied t :: notifyThenReturn t env event data completion reply := by
    intro t event data reply ht h r hr
    rcases List.mem_cons.1 hr with he2 | hr
    · exact Effect.noConfusion he2
    · exact notifyThenReturn_pending t env event data completion reply
        (by rw [ht]; exact h) r hr
  refine ⟨fun name value => ⟨fun h => ?_, fun h => ?_⟩,
    fun id name value hp => ?_, fun id hp => ?_⟩
  · exact cons_settled _ _ _ _ rfl h
  · exact cons_pending _ _ _ _ rfl h
  · obtain ⟨item, hf, hid⟩ := find?_some_of_present s.data id hp
    obtain ⟨hs, _, ht⟩ := updateData_present s env id name value item hf
    have htl : s.updateDataTimeline env id name value completion
        = Effect.applied (s.updateData env id name value).self
          :: notifyThenReturn (s.updateData env id name value).self env "DATA_UPDATED"
              (.item { id := id, name := name, value := value }) completion
              (.itemOrNull (some { id := id, name := name, value := value })) := by
      rw [hs]
      simp only [DatabaseSubject.updateDataTimeline, hf, hid]
    rw [htl, ht, hid]
    exact ⟨cons_settled _ _ _ _ (by rw [hs]), cons_pending _ _ _ _ (by rw [hs])⟩
  · obtain ⟨index, hf⟩ := findIdx?_some_of_present s.data id hp
    obtain ⟨hs, _, ht⟩ := deleteData_present s env id index hf
    have htl : s.deleteDataTimeline env id completion
        = Effect.applied (s.deleteData env id).self
          :: notifyThenReturn (s.deleteData env id).self env "DATA_DELETED"
              (.number id) completion (.bool true) := by
      rw [hs]
      simp only [DatabaseSubject.deleteDataTimeline, hf]
    rw [htl, ht]
    exact ⟨cons_settled _ _ _ _ (by rw [hs]), cons_pending _ _ _ _ (by rw [hs])⟩

/-- Witness of C16 amended: on the sample subject, with the second request
never settling, `deleteData(2)` never hands over its result. -/
theorem C16_result_after_all_deliveries_witness :
    Effect.returned (.bool true)
      ∉ DatabaseSubject.sample.deleteDataTimeline Env.allReachable 2 [0] :=
  (((C16_result_after_all_deliveries DatabaseSubject.sample Env.allReachable [0]).2.2 2
      ⟨{ id := 2, name := .string "n", value := .string "v" }, by simp [DatabaseSubject.sample], rfl⟩).2
    ⟨1, by simp [DatabaseSubject.sample], by simp⟩) (.bool true)

/-! ## Overlapping `addData` calls -/

theorem getElem?_split {α : Type} (l : List α) : ∀ (k : Nat) (x : α), l[k]? = some x →
    ∃ pre post, l = pre ++ x :: post ∧ l.eraseIdx k = pre ++ post := by
  induction l with
  | nil => intro k x h; simp at h
  | cons a as ih =>
    intro k x h
    cases k with
    | zero =>
      simp only [List.getElem?_cons_zero, Option.some.injEq] at h
      subst h
      exact ⟨[], as, rfl, rfl⟩
    | succ k =>
      simp only [List.getElem?_cons_succ] at h
      obtain ⟨pre, post, hl, he⟩ := ih k x h
      exact ⟨a :: pre, post, by rw [hl]; rfl, by rw [List.eraseIdx_cons_succ, he]; rfl⟩

/-- One turn of the event loop keeps: the records of the calls in flight or
returned are records of the subject, their ids are below the counter and
pairwise distinct, and the record ids of the subject are strictly increasing
and below the counter. -/
theorem turn_invariant (l : InFlight) (t : Turn)
    (hmem : ∀ d ∈ l.suspended ++ l.returned, d ∈ l.self.data)
    (hlt : ∀ d ∈ l.suspended ++ l.returned, d.id < l.self.nextId)
    (hnd : ((l.suspended ++ l.returned).map (fun d => d.id)).Nodup)
    (hdata : (l.self.data.map (fun d => d.id)).Pairwise (· < ·)
      ∧ ∀ i ∈ l.self.data.map (fun d => d.id), i < l.self.nextId) :
    (∀ d ∈ (l.turn t).suspended ++ (l.turn t).returned, d ∈ (l.turn t).self.data)
      ∧ (∀ d ∈ (l.turn t).suspended ++ (l.turn t).returned, d.id < (l.turn t).self.nextId)
      ∧ (((l.turn t).suspended ++ (l.turn t).returned).map (fun d => d.id)).Nodup
      ∧ (((l.turn t).self.data.map (fun d => d.id)).Pairwise (· < ·)
        ∧ ∀ i ∈ (l.turn t).self.data.map (fun d => d.id), i < (l.turn t).self.nextId) := by
  cases t with
  | call env name value =>
    have hperm : ((l.suspended
        ++ [({ id := l.self.nextId, name := name, value := value } : DataItem)])
        ++ l.returned).Perm
        (({ id := l.self.nextId, name := name, value := value } : DataItem)
          :: (l.suspended ++ l.returned)) := by
      rw [List.append_assoc]
      exact List.perm_middle
    simp only [InFlight.turn, addData_self]
    refine ⟨?_, ?_, ?_, step_records_ordered l.self (.addData env name value) hdata⟩
    · intro d hd
      rcases List.mem_cons.1 (hperm.subset hd) with rfl | hd
      · simp
      · exact List.mem_append_left _ (hmem d hd)
    · intro d hd
      rcases List.mem_cons.1 (hperm.subset hd) with rfl | hd
      · simp
      · have := hlt d hd; omega
    · rw [(hperm.map (fun d => d.id)).nodup_iff, List.map_cons, List.nodup_cons]
      refine ⟨fun hin => ?_, hnd⟩
      obtain ⟨d, hd, hid⟩ := List.mem_map.1 hin
      have := hlt d hd
      simp only at hid
      omega
  | resume k =>
    simp only [InFlight.turn]
    cases hk : l.suspended[k]? with
    | none => exact ⟨hmem, hlt, hnd, hdata⟩
    | some item =>
      obtain ⟨pre, post, hl, he⟩ := getElem?_split l.suspended k item hk
      have hperm : (l.suspended.eraseIdx k ++ (l.returned ++ [item])).Perm
          (l.suspended ++ l.returned) := by
        rw [he, hl]
        simp only [List.append_assoc]
        refine List.Perm.append_left pre ?_
        rw [← List.append_assoc, List.cons_append]
        exact List.perm_append_singleton item (post ++ l.returned)
      refine ⟨fun d hd => hmem d (hperm.subset hd), fun d hd => hlt d (hperm.subset hd),
        ?_, hdata⟩
      rw [(hperm.map (fun d => d.id)).nodup_iff]
      exact hnd

theorem turns_invariant (ts : List Turn) : ∀ l : InFlight,
    (∀ d ∈ l.suspended ++ l.returned, d ∈ l.self.data) →
    (∀ d ∈ l.suspended ++ l.returned, d.id < l.self.nextId) →
    ((l.suspended ++ l.returned).map (fun d => d.id)).Nodup →
    ((l.self.data.map (fun d => d.id)).Pairwise (· < ·)
      ∧ ∀ i ∈ l.self.data.map (fun d => d.id), i < l.self.nextId) →
    (∀ d ∈ (l.turns ts).suspended ++ (l.turns ts).returned, d ∈ (l.turns ts).self.data)
      ∧ (((l.turns ts).suspended ++ (l.turns ts).returned).map (fun d => d.id)).Nodup
      ∧ ((l.turns ts).self.data.map (fun d => d.id)).Pairwise (· < ·) := by
  induction ts with
  | nil => intro l h1 _ h3 h4; exact ⟨h1, h3, h4.1⟩
  | cons t ts ih =>
    intro l h1 h2 h3 h4
    obtain ⟨g1, g2, g3, g4⟩ := turn_invariant l t h1 h2 h3 h4
    exact ih (l.turn t) g1 g2 g3 g4

/-- After any turns the ids of the records in flight or returned are below the
counter. -/
theorem turns_bound (ts : List Turn) : ∀ l : InFlight,
    (∀ d ∈ l.suspended ++ l.returned, d ∈ l.self.data) →
    (∀ d ∈ l.suspended ++ l.returned, d.id < l.self.nextId) →
    ((l.suspended ++ l.returned).map (fun d => d.id)).Nodup →
    ((l.self.data.map (fun d => d.id)).Pairwise (· < ·)
      ∧ ∀ i ∈ l.self.data.map (fun d => d.id), i < l.self.nextId) →
    (∀ d ∈ (l.turns ts).suspended ++ (l.turns ts).returned, d.id < (l.turns ts).self.nextId)
      ∧ ∀ i ∈ (l.turns ts).self.data.map (fun d => d.id), i < (l.turns ts).self.nextId := by
  induction ts with
  | nil => intro l _ h2 _ h4; exact ⟨h2, h4.2⟩
  | cons t ts ih =>
    intro l h1 h2 h3 h4
    obtain ⟨g1, g2, g3, g4⟩ := turn_invariant l t h1 h2 h3 h4
    exact ih (l.turn t) g1 g2 g3 g4

theorem turns_append (a b : List Turn) : ∀ l : InFlight,
    l.turns (a ++ b) = (l.turns a).turns b := by
  induction a with
  | nil => intro l; rfl
  | cons t ts ih => intro l; exact ih (l.turn t)


/-- One turn: a call adds one record in flight and one to the counter, a
resumption moves a record from suspended to returned. -/
theorem turn_count (l : InFlight) (t : Turn) :
    (l.turn t).suspended.length + (l.turn t).returned.length
        = l.suspended.length + l.returned.length + (if t.isCall then 1 else 0)
      ∧ (l.turn t).self.nextId = l.self.nextId + (if t.isCall then 1 else 0) := by
  cases t with
  | call env name value => simp [InFlight.turn, Turn.isCall, addData_self]; omega
  | resume k =>
    simp only [InFlight.turn, Turn.isCall]
    cases hk : l.suspended[k]? with
    | none => simp
    | some item =>
      obtain ⟨pre, post, hl, he⟩ := getElem?_split l.suspended k item hk
      simp only [he]
      rw [hl]
      simp
      omega

theorem turns_count (ts : List Turn) : ∀ l : InFlight,
    (l.turns ts).suspended.length + (l.turns ts).returned.length
        = l.suspended.length + l.returned.length + ts.countP Turn.isCall
      ∧ (l.turns ts).self.nextId = l.self.nextId + ts.countP Turn.isCall := by
  induction ts with
  | nil => intro l; simp [InFlight.turns]
  | cons t ts ih =>
    intro l
    obtain ⟨h1, h2⟩ := ih (l.turn t)
    obtain ⟨g1, g2⟩ := turn_count l t
    simp only [InFlight.turns, List.countP_cons]
    rw [h1, h2, g1, g2]
    cases hc : t.isCall with
    | true => simp only [if_true, if_pos]; constructor <;> push_cast <;> omega
    | false => simp

/-- The ids of the records in flight or returned never fall below a bound that
the counter had reached. -/
theorem turns_lower (b : Int) (ts : List Turn) : ∀ l : InFlight,
    b ≤ l.self.nextId → (∀ d ∈ l.suspended ++ l.returned, b ≤ d.id) →
    ∀ d ∈ (l.turns ts).suspended ++ (l.turns ts).returned, b ≤ d.id := by
  induction ts with
  | nil => intro l _ h; exact h
  | cons t ts ih =>
    intro l hb h
    refine ih (l.turn t) ?_ ?_
    · have := (turn_count l t).2
      rw [this]; split <;> omega
    · cases t with
      | call env name value =>
        intro d hd
        simp only [InFlight.turn, List.mem_append, List.mem_singleton] at hd
        rcases hd with (hd | rfl) | hd
        · exact h d (List.mem_append_left _ hd)
        · exact hb
        · exact h d (List.mem_append_right _ hd)
      | resume k =>
        simp only [InFlight.turn]
        cases hk : l.suspended[k]? with
        | none => exact h
        | some item =>
          obtain ⟨pre, post, hl, he⟩ := getElem?_split l.suspended k item hk
          intro d hd
          simp only [he, List.mem_append, List.mem_singleton] at hd
          refine h d ?_
          rw [hl]
          simp only [List.mem_append, List.mem_cons]
          rcases hd with (hd | hd) | (hd | rfl)
          · exact Or.inl (Or.inl hd)
          · exact Or.inl (Or.inr (Or.inr hd))
          · exact Or.inr hd
          · exact Or.inl (Or.inr (Or.inl rfl))

/-- Resuming the first suspended call again and again returns every record in
flight, in the order the calls started. -/
theorem resume_all (n : Nat) : ∀ l : InFlight, l.suspended.length = n →
    l.turns (List.replicate n (.resume 0))
      = { self := l.self, suspended := [], returned := l.returned ++ l.suspended } := by
  induction n with
  | zero =>
    intro l hl
    have : l.suspended = [] := List.length_eq_zero.1 hl
    cases l
    simp_all [InFlight.turns]
  | succ n ih =>
    intro l hl
    cases hs : l.suspended with
    | nil => rw [hs] at hl; simp at hl
    | cons x xs =>
      have hlen : xs.length = n := by rw [hs] at hl; simpa using hl
      have hturn : l.turn (.resume 0)
          = { self := l.self, suspended := xs, returned := l.returned ++ [x] } := by
        simp [InFlight.turn, hs]
      simp only [List.replicate_succ, InFlight.turns]
      rw [hturn, ih _ hlen]
      simp

/-- C17: `addData` calls that overlap each get a record with an id of its own.
From any state reached from a fresh subject, let any number of `addData`
calls start and resume in any interleaving (a call runs without interruption
up to its `await`, as JavaScript runs it). Then every call that started has
exactly one record, in flight or returned; the counter went up by the number
of calls; the ids of these records lie between the old counter and the new
one and are pairwise distinct, so they are exactly the values the counter
went through; each of them is a record of the subject, whose ids are pairwise
distinct too; and once the suspended calls resume, every call has returned
its record, all with distinct ids. -/
theorem C17_overlapping_adds_get_distinct_ids (ops : List Op) (ts : List Turn) :
    (((InFlight.start (run DatabaseSubject.fresh ops).1).turns ts).returned.map
        (fun d => d.id)).Nodup
      ∧ ((((InFlight.start (run DatabaseSubject.fresh ops).1).turns ts).suspended
          ++ ((InFlight.start (run DatabaseSubject.fresh ops).1).turns ts).returned).map
            (fun d => d.id)).Nodup
      ∧ (∀ d ∈ ((InFlight.start (run DatabaseSubject.fresh ops).1).turns ts).suspended
          ++ ((InFlight.start (run DatabaseSubject.fresh ops).1).turns ts).returned,
          d ∈ ((InFlight.start (run DatabaseSubject.fresh ops).1).turns ts).self.getData)
      ∧ (((InFlight.start (run DatabaseSubject.fresh ops).1).turns ts).self.getData.map
          (fun d => d.id)).Nodup
      ∧ (((InFlight.start (run DatabaseSubject.fresh ops).1).turns ts).suspended
          ++ ((InFlight.start (run DatabaseSubject.fresh ops).1).turns ts).returned).length
          = ts.countP Turn.isCall
      ∧ ((InFlight.start (run DatabaseSubject.fresh ops).1).turns ts).self.nextId
          = (run DatabaseSubject.fresh ops).1.nextId + ts.countP Turn.isCall
      ∧ (∀ d ∈ ((InFlight.start (run DatabaseSubject.fresh ops).1).turns ts).suspended
          ++ ((InFlight.start (run DatabaseSubject.fresh ops).1).turns ts).returned,
          (run DatabaseSubject.fresh ops).1.nextId ≤ d.id
            ∧ d.id < ((InFlight.start (run DatabaseSubject.fresh ops).1).turns ts).self.nextId)
      ∧ ((InFlight.start (run DatabaseSubject.fresh ops).1).turns
          (ts ++ List.replicate
            ((InFlight.start (run DatabaseSubject.fresh ops).1).turns ts).suspended.length
            (.resume 0))).suspended = []
      ∧ ((InFlight.start (run DatabaseSubject.fresh ops).1).turns
          (ts ++ List.replicate
            ((InFlight.start (run DatabaseSubject.fresh ops).1).turns ts).suspended.length
            (.resume 0))).returned.length = ts.countP Turn.isCall
      ∧ (((InFlight.start (run DatabaseSubject.fresh ops).1).turns
          (ts ++ List.replicate
            ((InFlight.start (run DatabaseSubject.fresh ops).1).turns ts).suspended.length
            (.resume 0))).returned.map (fun d => d.id)).Nodup := by
  have hord := run_records_ordered ops DatabaseSubject.fresh (by simp [DatabaseSubject.fresh])
  generalize (run DatabaseSubject.fresh ops).1 = s at hord ⊢
  obtain ⟨h1, h2, h3⟩ := turns_invariant ts (InFlight.start s)
    (by simp [InFlight.start]) (by simp [InFlight.start]) (by simp [InFlight.start]) hord
  obtain ⟨hupper, _⟩ := turns_bound ts (InFlight.start s)
    (by simp [InFlight.start]) (by simp [InFlight.start]) (by simp [InFlight.start]) hord
  obtain ⟨hc1, hc2⟩ := turns_count ts (InFlight.start s)
  have hlow := turns_lower s.nextId ts (InFlight.start s) (le_refl _)
    (by simp [InFlight.start])
  have hlen : (((InFlight.start s).turns ts).suspended
      ++ ((InFlight.start s).turns ts).returned).length = ts.countP Turn.isCall := by
    rw [List.length_append, hc1]; simp [InFlight.start]
  have hall : (InFlight.start s).turns (ts ++ List.replicate
      ((InFlight.start s).turns ts).suspended.length (.resume 0))
      = { self := ((InFlight.start s).turns ts).self, suspended := [],
          returned := ((InFlight.start s).turns ts).returned
            ++ ((InFlight.start s).turns ts).suspended } := by
    rw [turns_append, resume_all _ _ rfl]
  have hswap : (((InFlight.start s).turns ts).returned
      ++ ((InFlight.start s).turns ts).suspended).Perm
      (((InFlight.start s).turns ts).suspended ++ ((InFlight.start s).turns ts).returned) :=
    List.perm_append_comm
  refine ⟨?_, h2, h1, h3.imp (fun h => ne_of_lt h), hlen, ?_, ?_, ?_, ?_, ?_⟩
  · rw [List.map_append] at h2
    exact (List.nodup_append.1 h2).2.1
  · rw [hc2]; simp [InFlight.start]
  · intro d hd
    exact ⟨hlow d hd, hupper d hd⟩
  · rw [hall]
  · rw [hall]
    simp only
    rw [hswap.length_eq, hlen]
  · rw [hall]
    simp only
    rw [(hswap.map (fun d => d.id)).nodup_iff]
    exact h2

end ObserverPattern
